import Mathlib

/-!
# Verification of the financial-ai-agent ingestion and classification pipeline

A shallow embedding, in Lean 4, of the parts of the `financial-ai-agent`
backend that the specification's testable properties talk about:

* `TransactionValidator` (date / amount / concept normalisation),
* `BankParser.normalize_amount`, `BankParser.parse_date`,
  `CSVGenericParser.parse`'s row loop and `TransaccionRaw.compute_hash`,
* the upload endpoints' deduplication loops (`/extractos/upload` and
  `/extractos/upload-smart`, including their two different hash functions:
  truncated SHA-256 and MD5, both implemented here bit-for-bit),
* `FileDetector.detect`,
* `CSVExtractorLLM.extract`'s row logic (debit/credit pairs),
* `BaseAgent.run`'s fault handling, and
* the `ClasificacionAgent` cascade (rules → history → LLM → review gate →
  save), with the external database / LLM collaborators as oracle functions.

Modelling conventions:

* Python machine floats and `Decimal`s are modelled as exact rationals (`ℚ`).
  Every claim below compares values that are parsed from short decimal
  numerals, where the float image is injective, so exactness is faithful.
* Python strings are Lean `String`s; `str.strip` strips the ASCII whitespace
  of `Char.isWhitespace` and `str.lower` is ASCII case folding (all inputs
  exercised are ASCII).
* Database queries and LLM calls are oracle parameters; the repository code
  around them is translated literally.
-/

/-! ## Python-style string helpers -/

/-- ASCII case folding, modelling `str.lower()` on the ASCII strings used
throughout the repository. -/
def pyLower (s : String) : String := ⟨s.data.map Char.toLower⟩

/-- Left-to-right, non-overlapping replacement of a nonempty pattern, with
explicit fuel so the kernel can evaluate it (every pattern replaced in the
repository is nonempty). -/
def replaceFuel (pat rep : List Char) : ℕ → List Char → List Char
  | _, [] => []
  | 0, l => l
  | fuel + 1, c :: rest =>
    if pat.isPrefixOf (c :: rest) then rep ++ replaceFuel pat rep fuel (rest.drop (pat.length - 1))
    else c :: replaceFuel pat rep fuel rest

/-- Python `str.replace(pat, rep)` (all occurrences). -/
def pyReplace (s pat rep : String) : String :=
  ⟨replaceFuel pat.data rep.data s.data.length s.data⟩

/-- Python `str.strip()` (whitespace from both ends). -/
def pyStrip (s : String) : String :=
  ⟨((s.data.dropWhile Char.isWhitespace).reverse.dropWhile Char.isWhitespace).reverse⟩

/-- Python slicing `s[:n]`. -/
def pyTake (s : String) (n : ℕ) : String := ⟨s.data.take n⟩

/-- Python `str.startswith`. -/
def pyStartsWith (s pre : String) : Bool := pre.data.isPrefixOf s.data

/-- Python `', '.join(keys)`. -/
def joinComma : List String → String
  | [] => ""
  | [x] => x
  | x :: rest => x ++ ", " ++ joinComma rest

/-- `subAux n h`: does `h` contain `n` as a contiguous run (Python `n in h`)? -/
def subAux (n : List Char) : List Char → Bool
  | [] => n.isEmpty
  | c :: t => n.isPrefixOf (c :: t) || subAux n t

/-- Python's substring test `needle in hay`. -/
def containsSub (needle hay : String) : Bool := subAux needle.data hay.data

/-- Index of the last occurrence of `c` in `s` (Python `str.rfind`),
`-1` when `c` does not occur. -/
def rfindChar (s : String) (c : Char) : Int :=
  match s.data.reverse.findIdx? (· = c) with
  | some i => ((s.data.length - 1 - i : ℕ) : Int)
  | none => -1

/-- Fold a list of decimal digit characters into the number they denote. -/
def digitsToNat (l : List Char) : ℕ := l.foldl (fun a c => a * 10 + (c.toNat - 48)) 0

/-- Zero-padded two-digit decimal rendering. -/
def pad2 (n : ℕ) : String := if n < 10 then "0" ++ toString n else toString n

/-- Zero-padded four-digit decimal rendering. -/
def pad4 (n : ℕ) : String :=
  if n < 10 then "000" ++ toString n
  else if n < 100 then "00" ++ toString n
  else if n < 1000 then "0" ++ toString n
  else toString n

/-! ## Byte-level encoding and the two hash functions

`/extractos/upload` deduplicates on `hashlib.sha256(data.encode()).hexdigest()[:16]`
(`TransaccionRaw.compute_hash`), while `/extractos/upload-smart` deduplicates on
`hashlib.md5(hash_str.encode()).hexdigest()`.  Both are implemented here over
`ℕ` byte lists so that concrete digests can be evaluated by `decide`. -/

/-- UTF-8 encoding of one character (Python `str.encode()`): byte values. -/
def utf8Char (c : Char) : List ℕ :=
  let n := c.toNat
  if n < 128 then [n]
  else if n < 2048 then [192 + n / 64, 128 + n % 64]
  else if n < 65536 then [224 + n / 4096, 128 + (n / 64) % 64, 128 + n % 64]
  else [240 + n / 262144, 128 + (n / 4096) % 64, 128 + (n / 64) % 64, 128 + n % 64]

/-- UTF-8 encoding of a string as a list of byte values. -/
def utf8Bytes (s : String) : List ℕ :=
  s.data.foldr (fun c acc => utf8Char c ++ acc) []

/-- Addition modulo `2^32`. -/
def add32 (a b : ℕ) : ℕ := (a + b) % 4294967296

/-- Right rotation of a 32-bit word. -/
def rotr32 (x n : ℕ) : ℕ := ((x >>> n) ||| (x <<< (32 - n))) % 4294967296

/-- Left rotation of a 32-bit word. -/
def rotl32 (x n : ℕ) : ℕ := ((x <<< n) ||| (x >>> (32 - n))) % 4294967296

/-- Bitwise complement within 32 bits. -/
def not32 (x : ℕ) : ℕ := x ^^^ 4294967295

/-- List indexing with default 0, for word schedules. -/
def nth0 (l : List ℕ) (i : ℕ) : ℕ := l.getD i 0

/-- Accumulating worker for `chunks64`: `cur` holds the current block in
reverse, `n` its length. -/
def chunksGo : List ℕ → List ℕ → ℕ → List (List ℕ)
  | [], cur, _ => if cur.isEmpty then [] else [cur.reverse]
  | b :: rest, cur, n =>
    if n = 63 then (b :: cur).reverse :: chunksGo rest [] 0
    else chunksGo rest (b :: cur) (n + 1)

/-- Split a byte list into 64-byte blocks (both hash paddings below produce
multiples of 64). -/
def chunks64 (l : List ℕ) : List (List ℕ) := chunksGo l [] 0

/-- Merkle–Damgård length padding shared by MD5 and SHA-256: append `0x80`,
then zeros to 56 mod 64, then the 8-byte bit length (`lenBytes` differs
between the two: big-endian for SHA-256, little-endian for MD5). -/
def mdPad (lenBytes : ℕ → List ℕ) (msg : List ℕ) : List ℕ :=
  let L := msg.length
  let k := (64 + 55 - (L % 64)) % 64
  msg ++ [128] ++ List.replicate k 0 ++ lenBytes (8 * L)

/-- 8-byte big-endian encoding of a length. -/
def be64 (n : ℕ) : List ℕ :=
  (List.range 8).map (fun i => (n >>> (8 * (7 - i))) % 256)

/-- 8-byte little-endian encoding of a length. -/
def le64 (n : ℕ) : List ℕ :=
  (List.range 8).map (fun i => (n >>> (8 * i)) % 256)

/-- Big-endian 32-bit words from a 64-byte block. -/
def wordsBE (block : List ℕ) : List ℕ :=
  (List.range 16).map (fun i =>
    nth0 block (4 * i) * 16777216 + nth0 block (4 * i + 1) * 65536 +
    nth0 block (4 * i + 2) * 256 + nth0 block (4 * i + 3))

/-- Little-endian 32-bit words from a 64-byte block. -/
def wordsLE (block : List ℕ) : List ℕ :=
  (List.range 16).map (fun i =>
    nth0 block (4 * i) + nth0 block (4 * i + 1) * 256 +
    nth0 block (4 * i + 2) * 65536 + nth0 block (4 * i + 3) * 16777216)

/-- Lowercase hexadecimal digit. -/
def hexDigit (n : ℕ) : Char := if n < 10 then Char.ofNat (48 + n) else Char.ofNat (87 + n)

/-- Lowercase 8-hex-character rendering of a 32-bit word (big-endian digit order). -/
def word32Hex (w : ℕ) : String :=
  ⟨(List.range 8).map (fun i => hexDigit ((w >>> (4 * (7 - i))) % 16))⟩

/-- Byte-order-swapped hex rendering of a 32-bit word, as MD5's digest uses. -/
def word32HexLE (w : ℕ) : String :=
  ⟨(List.range 4).foldr (fun i acc =>
      hexDigit ((w >>> (8 * i + 4)) % 16) :: hexDigit ((w >>> (8 * i)) % 16) :: acc) []⟩

/-! ### SHA-256 -/

/-- The SHA-256 round constants (decimal). -/
def shaK : List ℕ :=
  [1116352408, 1899447441, 3049323471, 3921009573, 961987163, 1508970993,
   2453635748, 2870763221, 3624381080, 310598401, 607225278, 1426881987,
   1925078388, 2162078206, 2614888103, 3248222580, 3835390401, 4022224774,
   264347078, 604807628, 770255983, 1249150122, 1555081692, 1996064986,
   2554220882, 2821834349, 2952996808, 3210313671, 3336571891, 3584528711,
   113926993, 338241895, 666307205, 773529912, 1294757372, 1396182291,
   1695183700, 1986661051, 2177026350, 2456956037, 2730485921, 2820302411,
   3259730800, 3345764771, 3516065817, 3600352804, 4094571909, 275423344,
   430227734, 506948616, 659060556, 883997877, 958139571, 1322822218,
   1537002063, 1747873779, 1955562222, 2024104815, 2227730452, 2361852424,
   2428436474, 2756734187, 3204031479, 3329325298]

/-- Extend 16 message words to the 64-word SHA-256 schedule. -/
def shaSchedule (w16 : List ℕ) : List ℕ :=
  (List.range 48).foldl (fun w i =>
    let x15 := nth0 w (i + 1)
    let x2 := nth0 w (i + 14)
    let s0 := (rotr32 x15 7) ^^^ (rotr32 x15 18) ^^^ (x15 >>> 3)
    let s1 := (rotr32 x2 17) ^^^ (rotr32 x2 19) ^^^ (x2 >>> 10)
    w ++ [(nth0 w i + s0 + nth0 w (i + 9) + s1) % 4294967296]) w16

/-- The eight-word SHA-256 working state. -/
structure Sha8 where
  a : ℕ
  b : ℕ
  c : ℕ
  d : ℕ
  e : ℕ
  f : ℕ
  g : ℕ
  h : ℕ
deriving Repr, DecidableEq

/-- SHA-256 initial state (decimal). -/
def shaInit : Sha8 :=
  ⟨1779033703, 3144134277, 1013904242, 2773480762,
   1359893119, 2600822924, 528734635, 1541459225⟩

/-- One SHA-256 compression round. -/
def shaRound (st : Sha8) (ki wi : ℕ) : Sha8 :=
  let s1 := (rotr32 st.e 6) ^^^ (rotr32 st.e 11) ^^^ (rotr32 st.e 25)
  let ch := (st.e &&& st.f) ^^^ ((not32 st.e) &&& st.g)
  let t1 := (st.h + s1 + ch + ki + wi) % 4294967296
  let s0 := (rotr32 st.a 2) ^^^ (rotr32 st.a 13) ^^^ (rotr32 st.a 22)
  let mj := (st.a &&& st.b) ^^^ (st.a &&& st.c) ^^^ (st.b &&& st.c)
  let t2 := (s0 + mj) % 4294967296
  ⟨add32 t1 t2, st.a, st.b, st.c, add32 st.d t1, st.e, st.f, st.g⟩

/-- Compress one 64-byte block into the running SHA-256 state. -/
def shaBlock (st : Sha8) (block : List ℕ) : Sha8 :=
  let w := shaSchedule (wordsBE block)
  let fin := (List.range 64).foldl (fun s i => shaRound s (nth0 shaK i) (nth0 w i)) st
  ⟨add32 st.a fin.a, add32 st.b fin.b, add32 st.c fin.c, add32 st.d fin.d,
   add32 st.e fin.e, add32 st.f fin.f, add32 st.g fin.g, add32 st.h fin.h⟩

/-- `hashlib.sha256(bytes).hexdigest()`. -/
def sha256Hex (msg : List ℕ) : String :=
  let fin := (chunks64 (mdPad be64 msg)).foldl shaBlock shaInit
  word32Hex fin.a ++ word32Hex fin.b ++ word32Hex fin.c ++ word32Hex fin.d ++
  word32Hex fin.e ++ word32Hex fin.f ++ word32Hex fin.g ++ word32Hex fin.h

/-! ### MD5 -/

/-- The MD5 sine-derived constant table (decimal). -/
def md5T : List ℕ :=
  [3614090360, 3905402710, 606105819, 3250441966, 4118548399, 1200080426,
   2821735955, 4249261313, 1770035416, 2336552879, 4294925233, 2304563134,
   1804603682, 4254626195, 2792965006, 1236535329, 4129170786, 3225465664,
   643717713, 3921069994, 3593408605, 38016083, 3634488961, 3889429448,
   568446438, 3275163606, 4107603335, 1163531501, 2850285829, 4243563512,
   1735328473, 2368359562, 4294588738, 2272392833, 1839030562, 4259657740,
   2763975236, 1272893353, 4139469664, 3200236656, 681279174, 3936430074,
   3572445317, 76029189, 3654602809, 3873151461, 530742520, 3299628645,
   4096336452, 1126891415, 2878612391, 4237533241, 1700485571, 2399980690,
   4293915773, 2240044497, 1873313359, 4264355552, 2734768916, 1309151649,
   4149444226, 3174756917, 718787259, 3951481745]

/-- The MD5 per-round left-rotation amounts. -/
def md5S : List ℕ :=
  [7, 12, 17, 22, 7, 12, 17, 22, 7, 12, 17, 22, 7, 12, 17, 22,
   5, 9, 14, 20, 5, 9, 14, 20, 5, 9, 14, 20, 5, 9, 14, 20,
   4, 11, 16, 23, 4, 11, 16, 23, 4, 11, 16, 23, 4, 11, 16, 23,
   6, 10, 15, 21, 6, 10, 15, 21, 6, 10, 15, 21, 6, 10, 15, 21]

/-- The four-word MD5 working state. -/
structure Md4 where
  a : ℕ
  b : ℕ
  c : ℕ
  d : ℕ
deriving Repr, DecidableEq

/-- MD5 initial state (decimal). -/
def md5Init : Md4 := ⟨1732584193, 4023233417, 2562383102, 271733878⟩

/-- One MD5 step (`i` from 0 to 63) over the 16 little-endian message words. -/
def md5Step (m : List ℕ) (st : Md4) (i : ℕ) : Md4 :=
  let (f, g) :=
    if i < 16 then ((st.b &&& st.c) ||| ((not32 st.b) &&& st.d), i)
    else if i < 32 then ((st.d &&& st.b) ||| ((not32 st.d) &&& st.c), (5 * i + 1) % 16)
    else if i < 48 then (st.b ^^^ st.c ^^^ st.d, (3 * i + 5) % 16)
    else (st.c ^^^ (st.b ||| (not32 st.d)), (7 * i) % 16)
  let f2 := (f + st.a + nth0 md5T i + nth0 m g) % 4294967296
  ⟨st.d, add32 st.b (rotl32 f2 (nth0 md5S i)), st.b, st.c⟩

/-- Compress one 64-byte block into the running MD5 state. -/
def md5Block (st : Md4) (block : List ℕ) : Md4 :=
  let m := wordsLE block
  let fin := (List.range 64).foldl (md5Step m) st
  ⟨add32 st.a fin.a, add32 st.b fin.b, add32 st.c fin.c, add32 st.d fin.d⟩

/-- `hashlib.md5(bytes).hexdigest()`. -/
def md5Hex (msg : List ℕ) : String :=
  let fin := (chunks64 (mdPad le64 msg)).foldl md5Block md5Init
  word32HexLE fin.a ++ word32HexLE fin.b ++ word32HexLE fin.c ++ word32HexLE fin.d

set_option maxRecDepth 10000

/-! ## Python numeric literals

`float(s)` and `Decimal(s)` on the finite numeric literals this pipeline
produces: optional sign, decimal digits with at most one point, optional
exponent.  Special values (`inf`, `nan`) and underscore separators are
outside the model; no claim exercises them.  Values are exact rationals. -/

/-- Parse sign, mantissa and optional exponent; `none` models `ValueError`
(for `float`) or `InvalidOperation` (for `Decimal`). -/
def numLit (s : String) : Option ℚ :=
  let cs := (pyStrip s).data
  let (neg, cs1) :=
    match cs with
    | '-' :: r => (true, r)
    | '+' :: r => (false, r)
    | r => (false, r)
  let ip := cs1.takeWhile Char.isDigit
  let cs2 := cs1.drop ip.length
  let (fp, cs3) :=
    match cs2 with
    | '.' :: r => (r.takeWhile Char.isDigit, r.drop (r.takeWhile Char.isDigit).length)
    | r => ([], r)
  if ip.isEmpty && fp.isEmpty then none
  else
    let m0 : ℤ := (digitsToNat (ip ++ fp) : ℤ)
    let m : ℤ := if neg then -m0 else m0
    match cs3 with
    | [] => some (mkRat m (10 ^ fp.length))
    | e :: r =>
      if e = 'e' || e = 'E' then
        let (eneg, r2) :=
          match r with
          | '-' :: r3 => (true, r3)
          | '+' :: r3 => (false, r3)
          | r3 => (false, r3)
        let ed := r2.takeWhile Char.isDigit
        if ed.isEmpty || !(r2.drop ed.length).isEmpty then none
        else if eneg then some (mkRat m (10 ^ fp.length * 10 ^ digitsToNat ed))
        else some (mkRat (m * 10 ^ digitsToNat ed) (10 ^ fp.length))
      else none

/-- Python's shortest-round-trip rendering `str(float(q))` for an amount with
a finite decimal expansion: minimal digits, at least one fractional digit
(`100.5 → "100.5"`, `2500 → "2500.0"`).  Every amount in this pipeline is a
short decimal, for which the shortest double rendering is exactly its
minimal decimal form. -/
def pyFloatRepr (q : ℚ) : String :=
  let sgn := if q.num < 0 then "-" else ""
  let n := q.num.natAbs
  let d := q.den
  let ip := n / d
  let r := n % d
  match (List.range 29).find? (fun k => (r * 10 ^ (k + 1)) % d = 0) with
  | none => sgn ++ toString ip ++ ".0"
  | some k =>
    let digits := toString ((r * 10 ^ (k + 1)) / d)
    let padded : String := ⟨List.replicate (k + 1 - digits.length) '0' ++ digits.data⟩
    sgn ++ toString ip ++ "." ++ padded

/-- Decidable equality for `Except`, used to evaluate parser results. -/
instance {ε α : Type} [DecidableEq ε] [DecidableEq α] : DecidableEq (Except ε α)
  | .ok a, .ok b =>
    match decEq a b with
    | isTrue h => isTrue (h ▸ rfl)
    | isFalse h => isFalse (fun hh => h (Except.ok.inj hh))
  | .error a, .error b =>
    match decEq a b with
    | isTrue h => isTrue (h ▸ rfl)
    | isFalse h => isFalse (fun hh => h (Except.error.inj hh))
  | .ok _, .error _ => isFalse (fun h => Except.noConfusion h)
  | .error _, .ok _ => isFalse (fun h => Except.noConfusion h)

/-! ## `TransactionValidator` (`backend/app/services/validators.py`) -/

/-- `TransactionValidator._parse_amount`, first block: `str.strip()` then
removal of spaces and currency symbols. -/
def amountClean (amountStr : String) : String :=
  let s0 := pyStrip amountStr
  pyReplace (pyReplace (pyReplace (pyReplace (pyReplace s0 " " "") "€" "") "$" "") "USD" "") "EUR" ""

/-- The separator-disambiguation block of `_parse_amount`: run on the
cleaned string. -/
def amountDisambiguate (s1 : String) : String :=
  let numCommas := s1.data.count ','
  let numDots := s1.data.count '.'
  if numCommas > 0 && numDots > 0 then
    if rfindChar s1 ',' > rfindChar s1 '.' then pyReplace (pyReplace s1 "." "") "," "."
    else pyReplace s1 "," ""
  else if numCommas > 0 then
    if numCommas = 1 && rfindChar s1 ',' > (s1.data.length : Int) - 4 then pyReplace s1 "," "."
    else pyReplace s1 "," ""
  else s1

/-- `TransactionValidator._parse_amount` assembled: clean, disambiguate,
`float(...)`. -/
def parseAmountV (amountStr : String) : Except String ℚ :=
  let s2 := amountDisambiguate (amountClean amountStr)
  match numLit s2 with
  | some q => .ok q
  | none => .error ("No se pudo parsear importe: " ++ s2)

/-- Gregorian leap year. -/
def isLeap (y : ℕ) : Bool := (y % 4 = 0 && y % 100 ≠ 0) || y % 400 = 0

/-- Days in a month. -/
def daysInMonth (y m : ℕ) : ℕ :=
  if m = 2 then (if isLeap y then 29 else 28)
  else if m = 4 || m = 6 || m = 9 || m = 11 then 30 else 31

/-- `datetime(year, month, day)` constructor validity. -/
def validDate (y m d : ℕ) : Bool :=
  1 ≤ y && y ≤ 9999 && 1 ≤ m && m ≤ 12 && 1 ≤ d && d ≤ daysInMonth y m

/-- `date.isoformat()`. -/
def isoFmt (y m d : ℕ) : String := pad4 y ++ "-" ++ pad2 m ++ "-" ++ pad2 d

/-- Candidate parses for `strptime`'s `%d` field: the CPython regex
`3[01]|[12]\d|0[1-9]|[1-9]` — two digits valued 1–31 first (greedy), then a
single digit 1–9. -/
def dayCands : List Char → List (ℕ × List Char)
  | a :: b :: r =>
    (if a.isDigit && b.isDigit &&
        (let v := (a.toNat - 48) * 10 + (b.toNat - 48); 1 ≤ v && v ≤ 31) then
      [((a.toNat - 48) * 10 + (b.toNat - 48), r)] else []) ++
    (if a.isDigit && a ≠ '0' then [(a.toNat - 48, b :: r)] else [])
  | [a] => if a.isDigit && a ≠ '0' then [(a.toNat - 48, [])] else []
  | [] => []

/-- Candidate parses for `strptime`'s `%m` field: `1[0-2]|0[1-9]|[1-9]`. -/
def monthCands : List Char → List (ℕ × List Char)
  | a :: b :: r =>
    (if a.isDigit && b.isDigit &&
        (let v := (a.toNat - 48) * 10 + (b.toNat - 48); 1 ≤ v && v ≤ 12) then
      [((a.toNat - 48) * 10 + (b.toNat - 48), r)] else []) ++
    (if a.isDigit && a ≠ '0' then [(a.toNat - 48, b :: r)] else [])
  | [a] => if a.isDigit && a ≠ '0' then [(a.toNat - 48, [])] else []
  | [] => []

/-- `strptime`'s `%Y` field: exactly four digits. -/
def yearCand : List Char → Option (ℕ × List Char)
  | a :: b :: c :: d :: r =>
    if a.isDigit && b.isDigit && c.isDigit && d.isDigit then
      some (digitsToNat [a, b, c, d], r) else none
  | _ => none

/-- Field order of a date format. -/
inductive DOrder | ymd | dmy
deriving DecidableEq

/-- One `strptime` format used by `_parse_date`: a separator and a field
order. -/
structure DFmt where
  sep : Char
  ord : DOrder

/-- The `_parse_date` format list
`['%Y-%m-%d', '%d/%m/%Y', '%d-%m-%Y', '%d.%m.%Y', '%Y/%m/%d']`. -/
def dateFmts : List DFmt :=
  [⟨'-', .ymd⟩, ⟨'/', .dmy⟩, ⟨'-', .dmy⟩, ⟨'.', .dmy⟩, ⟨'/', .ymd⟩]

/-- Expect a literal separator character. -/
def expectSep (sep : Char) : List Char → Option (List Char)
  | c :: r => if c = sep then some r else none
  | [] => none

/-- `strptime(s, fmt)` for the `%Y sep %m sep %d` shape: full consumption
plus `datetime` validity, with the regex's backtracking between two- and
one-digit month/day fields. -/
def tryYmd (sep : Char) (cs : List Char) : Option (ℕ × ℕ × ℕ) :=
  match yearCand cs with
  | none => none
  | some (y, r1) =>
    match expectSep sep r1 with
    | none => none
    | some r2 =>
      (monthCands r2).findSome? fun (m, r3) =>
        match expectSep sep r3 with
        | none => none
        | some r4 =>
          (dayCands r4).findSome? fun (d, r5) =>
            if r5.isEmpty && validDate y m d then some (y, m, d) else none

/-- `strptime(s, fmt)` for the `%d sep %m sep %Y` shape. -/
def tryDmy (sep : Char) (cs : List Char) : Option (ℕ × ℕ × ℕ) :=
  (dayCands cs).findSome? fun (d, r1) =>
    match expectSep sep r1 with
    | none => none
    | some r2 =>
      (monthCands r2).findSome? fun (m, r3) =>
        match expectSep sep r3 with
        | none => none
        | some r4 =>
          match yearCand r4 with
          | none => none
          | some (y, r5) =>
            if r5.isEmpty && validDate y m d then some (y, m, d) else none

/-- Run one format of `_parse_date`'s `strptime` loop. -/
def tryFmt (f : DFmt) (cs : List Char) : Option (ℕ × ℕ × ℕ) :=
  match f.ord with
  | .ymd => tryYmd f.sep cs
  | .dmy => tryDmy f.sep cs

/-- One regex pattern of `TransactionValidator.DATE_PATTERNS`: three
fixed-width digit groups joined by a literal separator. -/
structure DPat where
  g1 : ℕ
  sep : Char
  g2 : ℕ
  g3 : ℕ

/-- `DATE_PATTERNS`: `YYYY-MM-DD`, `DD/MM/YYYY`, `DD-MM-YYYY`, `DD.MM.YYYY`. -/
def datePats : List DPat := [⟨4, '-', 2, 2⟩, ⟨2, '/', 2, 4⟩, ⟨2, '-', 2, 4⟩, ⟨2, '.', 2, 4⟩]

/-- Take exactly `n` digit characters. -/
def takeDigits (n : ℕ) (cs : List Char) : Option (List Char × List Char) :=
  let pre := cs.take n
  if pre.length = n && pre.all Char.isDigit then some (pre, cs.drop n) else none

/-- Match a `DPat` at the head of the input, returning the three groups. -/
def matchPatHere (p : DPat) (cs : List Char) : Option (List Char × List Char × List Char) :=
  match takeDigits p.g1 cs with
  | none => none
  | some (a, r1) =>
    match expectSep p.sep r1 with
    | none => none
    | some r2 =>
      match takeDigits p.g2 r2 with
      | none => none
      | some (b, r3) =>
        match expectSep p.sep r3 with
        | none => none
        | some r4 =>
          match takeDigits p.g3 r4 with
          | none => none
          | some (c, _) => some (a, b, c)

/-- `re.search`: first position, scanning left to right, where the pattern
matches. -/
def searchPat (p : DPat) : List Char → Option (List Char × List Char × List Char)
  | [] => matchPatHere p []
  | c :: r =>
    match matchPatHere p (c :: r) with
    | some g => some g
    | none => searchPat p r

/-- The regex-fallback body of `_parse_date`: order detection by the length
of the first group, then `datetime` validity (a failure falls through to the
next pattern via `continue`). -/
def tryPat (p : DPat) (cs : List Char) : Option (ℕ × ℕ × ℕ) :=
  match searchPat p cs with
  | none => none
  | some (a, b, c) =>
    let (y, m, d) :=
      if a.length = 4 then (digitsToNat a, digitsToNat b, digitsToNat c)
      else (digitsToNat c, digitsToNat b, digitsToNat a)
    if validDate y m d then some (y, m, d) else none

/-- `TransactionValidator._parse_date`: the `strptime` format loop, then the
regex fallback, else the `ValueError` message. -/
def parseDateV (dateStr : String) : Except String String :=
  let s := pyStrip dateStr
  match dateFmts.findSome? (fun f => tryFmt f s.data) with
  | some (y, m, d) => .ok (isoFmt y m d)
  | none =>
    match datePats.findSome? (fun p => tryPat p s.data) with
    | some (y, m, d) => .ok (isoFmt y m d)
    | none => .error ("No se pudo parsear fecha: " ++ s)

/-- Worker for `_clean_concept`'s `re.sub(r'\s+', ' ', ·)`: collapse each
whitespace run to a single space. -/
def collapseWs : Bool → List Char → List Char
  | _, [] => []
  | prevWs, c :: rest =>
    if c.isWhitespace then
      if prevWs then collapseWs true rest
      else ' ' :: collapseWs true rest
    else c :: collapseWs false rest

/-- `TransactionValidator._clean_concept`. -/
def cleanConcept (concept : String) : String := ⟨collapseWs false (pyStrip concept).data⟩

/-- An extraction-stage transaction dict (`{'fecha', 'concepto', 'importe',
'referencia', 'metadata'}`); metadata values are carried as strings. -/
structure RawTx where
  fecha : String
  concepto : String
  importe : String
  referencia : Option String
  metadata : List (String × String)
deriving Repr, DecidableEq

/-- A validated transaction as returned by `TransactionValidator.validate`. -/
structure ValidTx where
  fecha : String
  concepto : String
  importe : ℚ
  referencia : Option String
  metadata : List (String × String)
deriving Repr, DecidableEq

/-- `TransactionValidator.validate`: the dict literal evaluates `fecha`
first, so a date failure raises before the amount is parsed. -/
def validateTx (tx : RawTx) : Except String ValidTx := do
  let f ← parseDateV tx.fecha
  let imp ← parseAmountV tx.importe
  .ok { fecha := f, concepto := cleanConcept tx.concepto, importe := imp,
        referencia := tx.referencia, metadata := tx.metadata }

/-- One collected validation error of `SmartParserAgent.validate_and_clean`:
`{"linea": idx+1, "transaccion": tx, "error": str(e)}`. -/
structure VError where
  linea : ℕ
  transaccion : RawTx
  error : String
deriving Repr, DecidableEq

/-- Result state of `validate_and_clean`. -/
structure VCResult where
  validadas : List ValidTx
  errores : List VError
  status : String
deriving Repr, DecidableEq

/-- Worker: the `for idx, tx in enumerate(transacciones)` loop. -/
def vcGo (idx : ℕ) : List RawTx → List ValidTx × List VError
  | [] => ([], [])
  | tx :: rest =>
    match validateTx tx with
    | .ok v => (v :: (vcGo (idx + 1) rest).1, (vcGo (idx + 1) rest).2)
    | .error e => ((vcGo (idx + 1) rest).1, ⟨idx + 1, tx, e⟩ :: (vcGo (idx + 1) rest).2)

/-- `SmartParserAgent.validate_and_clean`: per-record validation, errors
collected, batch status `completed` / `completed_with_errors`. -/
def validateAndClean (txs : List RawTx) : VCResult :=
  ⟨(vcGo 0 txs).1, (vcGo 0 txs).2,
   if (vcGo 0 txs).2.isEmpty then "completed" else "completed_with_errors"⟩

example : parseDateV "15/12/2024" = .ok "2024-12-15" := by decide
example : parseDateV "2024-12-15" = .ok "2024-12-15" := by decide
example : parseDateV "15-12-2024" = .ok "2024-12-15" := by decide
example : parseAmountV "1.234,56" = .ok (mkRat 123456 100) := by decide
example : parseAmountV "1,234.56" = .ok (mkRat 123456 100) := by decide
example : parseAmountV "-123.45" = .ok (mkRat (-12345) 100) := by decide
example : parseAmountV "€ 1.234,56" = .ok (mkRat 123456 100) := by decide
example : pyFloatRepr (mkRat 1005 10) = "100.5" := by decide
example : pyFloatRepr (mkRat 2500 1) = "2500.0" := by decide
example : pyFloatRepr (mkRat (-4599) 100) = "-45.99" := by decide

/-! ## `BankParser` (`backend/app/services/parsers/base.py`) -/

/-- `BankParser.normalize_amount` is total: empty/whitespace input and
`InvalidOperation` both yield `Decimal("0")`.  `Decimal(cleaned)` on the
finite numeric literals reachable here is modelled by `numLit`.  First
block: strip and currency-symbol removal. -/
def bankClean (value : String) : String :=
  pyStrip (pyReplace (pyReplace (pyReplace (pyStrip value) "€" "") "EUR" "") " " "")

/-- `normalize_amount`'s Spanish/international disambiguation (a lone comma
is always taken as the decimal separator here, unlike the validator's). -/
def bankDisamb (cleaned : String) : String :=
  if cleaned.data.count ',' > 0 && cleaned.data.count '.' > 0 then
    if rfindChar cleaned ',' > rfindChar cleaned '.' then
      pyReplace (pyReplace cleaned "." "") "," "."
    else pyReplace cleaned "," ""
  else if cleaned.data.count ',' > 0 then pyReplace cleaned "," "."
  else cleaned

/-- `BankParser.normalize_amount` assembled. -/
def normalize_amount (value : String) : ℚ :=
  if value = "" || pyStrip value = "" then 0
  else
    match numLit (bankDisamb (bankClean value)) with
    | some q => q
    | none => 0

/-- A Python `datetime.date`. -/
structure PDate where
  year : ℕ
  month : ℕ
  day : ℕ
deriving Repr, DecidableEq

/-- `date.isoformat()`. -/
def PDate.iso (dt : PDate) : String := isoFmt dt.year dt.month dt.day

/-- The `TransaccionRaw` dataclass of `parsers/base.py`, incidental fields
(`saldo`, `fecha_valor`) included. -/
structure TransaccionRaw where
  fecha : PDate
  concepto : String
  importe : ℚ
  saldo : Option ℚ
  referencia : Option String
  fecha_valor : Option PDate
deriving Repr, DecidableEq

/-- `TransaccionRaw.compute_hash`:
`sha256(f"{fecha.isoformat()}|{concepto}|{float(importe)}" [+ f"|{referencia}"]).hexdigest()[:16]`;
the reference is appended only when truthy (present and nonempty). -/
def TransaccionRaw.compute_hash (t : TransaccionRaw) : String :=
  let data := t.fecha.iso ++ "|" ++ t.concepto ++ "|" ++ pyFloatRepr t.importe
  let data2 :=
    match t.referencia with
    | some r => if r ≠ "" then data ++ "|" ++ r else data
    | none => data
  pyTake (sha256Hex (utf8Bytes data2)) 16

/-! ### `CSVGenericParser.parse`'s row loop (`services/parsers/csv_parser.py`)

The standard `/extractos/upload` path parses with `CSVGenericParser`, whose
row loop feeds `normalize_amount`'s result through `if importe == 0:
continue` before anything is built.  The `csv.DictReader` rows and the
column map from `_detect_columns` are inputs (dicts as association
lists). -/

/-- Python `dict.get(k, default)` over an association-list dict. -/
def dictGet (d : List (String × String)) (k dflt : String) : String :=
  (d.lookup k).getD dflt

/-- `strptime`'s `%y` field: exactly two digits, CPython's century rule
(`≤ 68 → 2000 + y`, else `1900 + y`). -/
def year2Cand : List Char → Option (ℕ × List Char)
  | a :: b :: r =>
    if a.isDigit && b.isDigit then some ((a.toNat - 48) * 10 + (b.toNat - 48), r)
    else none
  | _ => none

/-- `strptime(s, "%d SEP %m SEP %y")`. -/
def tryDmy2 (sep : Char) (cs : List Char) : Option (ℕ × ℕ × ℕ) :=
  (dayCands cs).findSome? fun (d, r1) =>
    match expectSep sep r1 with
    | none => none
    | some r2 =>
      (monthCands r2).findSome? fun (m, r3) =>
        match expectSep sep r3 with
        | none => none
        | some r4 =>
          match year2Cand r4 with
          | none => none
          | some (y2, r5) =>
            let y := if y2 ≤ 68 then 2000 + y2 else 1900 + y2
            if r5.isEmpty && validDate y m d then some (y, m, d) else none

/-- `strptime(s, "%Y%m%d")`: no separators, with the field regexes'
backtracking between two- and one-digit month/day. -/
def tryYmdCompact (cs : List Char) : Option (ℕ × ℕ × ℕ) :=
  match yearCand cs with
  | none => none
  | some (y, r1) =>
    (monthCands r1).findSome? fun (m, r2) =>
      (dayCands r2).findSome? fun (d, r3) =>
        if r3.isEmpty && validDate y m d then some (y, m, d) else none

/-- `BankParser.parse_date`: strip, then try
`%d/%m/%Y, %d-%m-%Y, %Y-%m-%d, %d.%m.%Y, %d/%m/%y, %Y%m%d` in order;
`none` models the `ValueError`. -/
def parseDateBP (value : String) : Option PDate :=
  let cs := (pyStrip value).data
  (([tryDmy '/', tryDmy '-', tryYmd '-', tryDmy '.', tryDmy2 '/',
      fun l => tryYmdCompact l] :
    List (List Char → Option (ℕ × ℕ × ℕ))).findSome? (fun f => f cs)).map
    (fun (y, m, d) => ⟨y, m, d⟩)

/-- One iteration of `CSVGenericParser.parse`'s `for row in reader` body:
`none` models every `continue` — a zero amount (`if importe == 0`), a
missing date, or a `ValueError` from `parse_date` caught by the
`except` — so such rows are silently dropped. -/
def csvRowTx (cmap row : List (String × String)) : Option TransaccionRaw :=
  let concepto0 := dictGet row (dictGet cmap "concepto" "") ""
  let concepto := if concepto0 = "" then "Sin concepto" else concepto0
  let importe := normalize_amount (dictGet row (dictGet cmap "importe" "") "0")
  if importe = 0 then none
  else
    if dictGet row (dictGet cmap "fecha" "") "" = "" then none
    else
      match parseDateBP (dictGet row (dictGet cmap "fecha" "") "") with
      | none => none
      | some fecha =>
        let saldo :=
          match cmap.lookup "saldo" with
          | some sfield =>
            if sfield = "" then none
            else if dictGet row sfield "" = "" then none
            else some (normalize_amount (dictGet row sfield ""))
          | none => none
        let referencia :=
          match cmap.lookup "referencia" with
          | some rfield => if rfield = "" then none else some (dictGet row rfield "")
          | none => none
        some ⟨fecha, pyStrip concepto, importe, saldo, referencia, none⟩

/-- `CSVGenericParser.parse`'s transaction list over the decoded rows. -/
def csvParse (cmap : List (String × String)) (rows : List (List (String × String))) :
    List TransaccionRaw :=
  rows.filterMap (csvRowTx cmap)

/-! ## The upload endpoints' deduplication loops (`api/v1/extractos.py`)

The database is modelled as the list of stored transaction hashes; the
`SELECT … WHERE hash == h` existence probe sees rows added earlier in the
same request (SQLAlchemy autoflush), which the growing list models. -/

/-- The shape both endpoints share: per transaction, compute the hash, skip
as duplicate if already stored, else store.  Returns
`(created, duplicados, stored hashes)`. -/
def dedupLoop {τ : Type} (hashOf : τ → String) :
    List τ → ℕ × ℕ × List String → ℕ × ℕ × List String
  | [], acc => acc
  | t :: rest, (cr, du, ex) =>
    let h := hashOf t
    if ex.contains h then dedupLoop hashOf rest (cr, du + 1, ex)
    else dedupLoop hashOf rest (cr + 1, du, ex ++ [h])

/-- The `/extractos/upload` dedup/insert loop, keyed on
`TransaccionRaw.compute_hash`. -/
def uploadLoop : List TransaccionRaw → ℕ × ℕ × List String → ℕ × ℕ × List String :=
  dedupLoop TransaccionRaw.compute_hash

/-- `/extractos/upload-smart`'s per-record hash:
`hashlib.md5(f"{fecha}|{concepto}|{importe}".encode()).hexdigest()` —
note: no reference, and MD5 instead of truncated SHA-256. -/
def smartHash (tx : ValidTx) : String :=
  md5Hex (utf8Bytes (tx.fecha ++ "|" ++ tx.concepto ++ "|" ++ pyFloatRepr tx.importe))

/-- The `/extractos/upload-smart` dedup/insert loop over validated
transactions, keyed on `smartHash`. -/
def smartLoop : List ValidTx → ℕ × ℕ × List String → ℕ × ℕ × List String :=
  dedupLoop smartHash

/-! ## `FileDetector` (`backend/app/services/file_detector.py`) -/

/-- `FileDetector.detect`'s three outcomes: success, `FileNotFoundError`,
`ValueError` (unsupported format). -/
inductive DetectResult where
  | found (formato mime : String)
  | notFound (msg : String)
  | unsupported (msg : String)
deriving Repr, DecidableEq

/-- `self.supported_extensions`, in insertion order. -/
def supportedExtensions : List (String × String) :=
  [(".csv", "csv"), (".txt", "csv"), (".xls", "excel"), (".xlsx", "excel"),
   (".xlsm", "excel"), (".ofx", "ofx"), (".pdf", "pdf"), (".jpg", "image"),
   (".jpeg", "image"), (".png", "image"), (".webp", "image"), (".gif", "image"),
   (".html", "html"), (".htm", "html")]

/-- Final path component (the part after the last `/`). -/
def pathName (p : String) : List Char := (p.data.reverse.takeWhile (· ≠ '/')).reverse

/-- `pathlib.Path(p).suffix`: from the last dot of the name, provided it is
neither the first nor the last character of the name. -/
def pathSuffix (p : String) : String :=
  let name := pathName p
  match name.reverse.findIdx? (· = '.') with
  | none => ""
  | some ri =>
    let i := name.length - 1 - ri
    if 0 < i && i < name.length - 1 then ⟨name.drop i⟩ else ""

/-- `FileDetector.detect`.  The filesystem is an oracle giving each
existing path's size in bytes (`none` = missing); `mimeGuess` models
`mimetypes.guess_type`.  Note the code checks existence only — a zero-byte
existing file proceeds to extension dispatch. -/
def fileDetect (fsSize : String → Option ℕ) (mimeGuess : String → Option String)
    (filePath : String) : DetectResult :=
  match fsSize filePath with
  | none => .notFound ("Archivo no encontrado: " ++ filePath)
  | some _ =>
    let extension := pyLower (pathSuffix filePath)
    match supportedExtensions.lookup extension with
    | none =>
      .unsupported ("Formato no soportado: " ++ extension ++ ". Soportados: " ++
        joinComma (supportedExtensions.map (·.1)))
    | some formato =>
      let mimeType :=
        match mimeGuess filePath with
        | some m => if m = "" then "application/octet-stream" else m
        | none => "application/octet-stream"
      .found formato mimeType

/-! ## `BaseAgent.run` (`backend/app/agents/base.py`)

A compiled LangGraph with linear edges is a sequence of state-transforming
steps; an exception anywhere aborts `ainvoke` and `run`'s handler returns
`{**initial_state, "status": "error", "error": str(e)}`. -/

/-- The modelled agent state: the base fields the handler touches plus an
arbitrary payload for everything else. -/
structure AgSt (α : Type) where
  status : String
  error : Option String
  payload : α
deriving Repr, DecidableEq

/-- Run the pipeline stages in order; a raised exception short-circuits. -/
def runSteps {α : Type} (steps : List (AgSt α → Except String (AgSt α)))
    (s : AgSt α) : Except String (AgSt α) :=
  match steps with
  | [] => .ok s
  | f :: fs =>
    match f s with
    | .ok s2 => runSteps fs s2
    | .error e => .error e

/-- `BaseAgent.run`: on an unhandled exception, return the *initial* state
with `status = "error"` and the fault description. -/
def runAgent {α : Type} (steps : List (AgSt α → Except String (AgSt α)))
    (init : AgSt α) : AgSt α :=
  match runSteps steps init with
  | .ok s => s
  | .error e => { init with status := "error", error := some e }

/-- The state after the last stage that completed successfully (what the
specification calls the "last good pipeline state"). -/
def lastGoodState {α : Type} (steps : List (AgSt α → Except String (AgSt α)))
    (init : AgSt α) : AgSt α :=
  match steps with
  | [] => init
  | f :: fs =>
    match f init with
    | .ok s2 => lastGoodState fs s2
    | .error _ => init

/-! ## `CSVExtractorLLM.extract` (`services/extractors/csv_extractor_llm.py`)

The file/`csv.reader` boundary is modelled by taking the decoded rows
(lists of cell strings) as input. -/

/-- One entry of the LLM-interpreted structure's `columnas`. -/
structure ColInfo where
  indice : ℕ
  tipo : String
deriving Repr, DecidableEq

/-- The LLM-interpreted structure (fields the row loop consults). -/
structure Estructura where
  tiene_cabecera : Bool
  columnas : List ColInfo
deriving Repr, DecidableEq

/-- `_get_column_index_by_type`: first column of the given type. -/
def getColIdxByType (cols : List ColInfo) (tipo : String) : Option ℕ :=
  (cols.find? (fun c => c.tipo = tipo)).map (·.indice)

/-- `row[i].strip() if i < len(row) else ''`. -/
def cellAt (row : List String) (i : ℕ) : String :=
  if i < row.length then pyStrip (row.getD i "") else ""

/-- `row[i].strip() if i is not None and i < len(row) else ''`. -/
def conceptoCell (row : List String) (oi : Option ℕ) : String :=
  match oi with
  | some i => cellAt row i
  | none => ""

/-- `row[i].strip() if i is not None and i < len(row) else None`. -/
def refCell (row : List String) (oi : Option ℕ) : Option String :=
  match oi with
  | some i => if i < row.length then some (pyStrip (row.getD i "")) else none
  | none => none

/-- The debit/credit combination rule of the row loop: with two (or more)
numeric columns, a debit that is not empty/`'0'`/`'0,00'` becomes
`"-" ++ debe`, else such a credit is taken positive, else the row is
skipped (`none`); a single numeric column is used as-is. -/
def importeOfRow (importeIndices : List ℕ) (row : List String) : Option String :=
  match importeIndices with
  | i0 :: i1 :: _ =>
    let debe := cellAt row i0
    let haber := cellAt row i1
    if debe ≠ "" && debe ≠ "0" && debe ≠ "0,00" then some ("-" ++ debe)
    else if haber ≠ "" && haber ≠ "0" && haber ≠ "0,00" then some haber
    else none
  | [i0] => some (cellAt row i0)
  | [] => none

/-- The `for row_idx, row in enumerate(reader, start=2)` loop. -/
def extractRowsGo (fechaIdx : ℕ) (conceptoIdx referenciaIdx : Option ℕ)
    (importeIndices : List ℕ) : ℕ → List (List String) → List RawTx
  | _, [] => []
  | n, row :: rest =>
    if row.isEmpty || row.length < 2 then
      extractRowsGo fechaIdx conceptoIdx referenciaIdx importeIndices (n + 1) rest
    else
      let fecha := cellAt row fechaIdx
      match importeOfRow importeIndices row with
      | none => extractRowsGo fechaIdx conceptoIdx referenciaIdx importeIndices (n + 1) rest
      | some importe =>
        if fecha = "" || importe = "" then
          extractRowsGo fechaIdx conceptoIdx referenciaIdx importeIndices (n + 1) rest
        else
          { fecha := fecha, concepto := conceptoCell row conceptoIdx, importe := importe,
            referencia := refCell row referenciaIdx,
            metadata := [("linea", toString n), ("formato", "csv"),
                         ("extractor", "llm-guided"), ("llm_estructura", "True")] }
          :: extractRowsGo fechaIdx conceptoIdx referenciaIdx importeIndices (n + 1) rest

/-- `CSVExtractorLLM.extract` over decoded rows: header skip, then the row
loop; missing date or numeric columns raise `ValueError`. -/
def csvExtractLLM (est : Estructura) (rows : List (List String)) : Except String (List RawTx) :=
  match getColIdxByType est.columnas "fecha" with
  | none => .error "LLM no identificó columna de fecha"
  | some fechaIdx =>
    let importeIndices := (est.columnas.filter (fun c => c.tipo = "numero")).map (·.indice)
    if importeIndices.isEmpty then .error "LLM no identificó columnas de importe"
    else
      let body := if est.tiene_cabecera then rows.drop 1 else rows
      .ok (extractRowsGo fechaIdx (getColIdxByType est.columnas "texto")
            (getColIdxByType est.columnas "referencia") importeIndices 2 body)

/-! ## `ClasificacionAgent` (`backend/app/agents/clasificacion.py`)

`load_data` fetches the batch's transactions and the tenant's active rules
ordered by `prioridad` descending; both are inputs here (with sortedness as
a hypothesis where a claim needs it).  The history query and the LLM are
oracle functions.  Floats (`0.99`, `0.85`, thresholds) are exact rationals.
-/

/-- One loaded transaction dict `{"id", "concepto", "importe"}`.
`importeStr` carries Python's `str(importe)` for the (unused in practice)
case of a rule condition over the `importe` field. -/
structure Tx where
  id : String
  concepto : String
  importe : ℚ
  importeStr : String
deriving Repr, DecidableEq

/-- A rule's `condicion` JSON dict; absent keys use `_match_rule`'s
defaults. -/
structure Condicion where
  campo : Option String
  operador : Option String
  valor : Option String
deriving Repr, DecidableEq

/-- A row of `reglas_clasificacion` as projected by `load_data`. -/
structure Regla where
  id : String
  condicion : Condicion
  categoria_pgc : String
  prioridad : Int
deriving Repr, DecidableEq

/-- One classification decision dict. -/
structure Clasif where
  transaccion_id : String
  categoria_pgc : String
  confianza : ℚ
  metodo : String
  explicacion : String
deriving Repr, DecidableEq

/-- `str(tx.get(campo, ""))` over the loaded transaction dict. -/
def txGet (tx : Tx) (campo : String) : String :=
  if campo = "id" then tx.id
  else if campo = "concepto" then tx.concepto
  else if campo = "importe" then tx.importeStr
  else ""

/-- `ClasificacionAgent._match_rule`. -/
def matchRule (tx : Tx) (c : Condicion) : Bool :=
  let campo := c.campo.getD "concepto"
  let operador := c.operador.getD "contains"
  let valor := pyLower (c.valor.getD "")
  let txValor := pyLower (txGet tx campo)
  if operador = "contains" then containsSub valor txValor
  else if operador = "equals" then valor = txValor
  else if operador = "startswith" then pyStartsWith txValor valor
  else false

/-- The rule-phase confidence `0.99`. -/
def ruleConf : ℚ := mkRat 99 100

/-- The decision `apply_rules` appends for a transaction matching rule `r`. -/
def ruleDecision (tx : Tx) (r : Regla) : Clasif :=
  ⟨tx.id, r.categoria_pgc, ruleConf, "regla", "Regla: " ++ r.id⟩

/-- The `for tx / for regla / break` double loop of `apply_rules`:
decisions in transaction order, plus the matched-id set. -/
def applyRulesGo (reglas : List Regla) : List Tx → List Clasif × List String
  | [] => ([], [])
  | tx :: rest =>
    match reglas.find? (fun r => matchRule tx r.condicion) with
    | some r =>
      (ruleDecision tx r :: (applyRulesGo reglas rest).1, tx.id :: (applyRulesGo reglas rest).2)
    | none => applyRulesGo reglas rest

/-- `ClasificacionAgent.apply_rules`: returns the new `clasificaciones` and
the remaining `transacciones` (those whose id was not classified). -/
def applyRules (txs : List Tx) (reglas : List Regla) : List Clasif × List Tx :=
  ((applyRulesGo reglas txs).1,
   txs.filter (fun t => !(applyRulesGo reglas txs).2.contains t.id))

/-- `max(set(categorias), key=categorias.count)`: the most frequent
category; set iteration is modelled as first-occurrence order (ties are not
exercised by any claim). -/
def mostCommon (l : List String) : String :=
  match l.eraseDups with
  | [] => ""
  | x :: rest => rest.foldl (fun best c => if l.count c > l.count best then c else best) x

/-- Round half-to-even of `n / d` (`d > 0`), modelling Python's `round`. -/
def halfEven2 (n : ℤ) (d : ℕ) : ℤ :=
  let f := Int.fdiv n d
  let r2 := 2 * (n - f * d)
  if r2 < d then f else if r2 > d then f + 1 else if f % 2 = 0 then f else f + 1

/-- `round(x, 2)`. -/
def round2Q (x : ℚ) : ℚ := mkRat (halfEven2 (x.num * 100) x.den) 100

/-- The decision `check_history` appends: most frequent prior category,
confidence `round(0.85 * frequency, 2)`, method `"historico"`. -/
def histDecision (tx : Tx) (historico : List String) : Clasif :=
  let catComun := mostCommon historico
  ⟨tx.id, catComun,
   round2Q (mkRat (85 * historico.count catComun) (100 * historico.length)),
   "historico", "Basado en " ++ toString historico.length ++ " clasificaciones similares"⟩

/-- The `check_history` loop: `hist` models the validated-precedent query
(applied to `tx['concepto'][:20]`, at most 5 rows); `ids` is the growing
`clasificadas_ids` set. -/
def checkHistoryGo (hist : String → List String) : List Tx → List String → List Clasif × List Tx
  | [], _ => ([], [])
  | tx :: rest, ids =>
    if ids.contains tx.id then checkHistoryGo hist rest ids
    else
      if (hist (pyTake tx.concepto 20)).isEmpty then
        ((checkHistoryGo hist rest ids).1, tx :: (checkHistoryGo hist rest ids).2)
      else
        (histDecision tx (hist (pyTake tx.concepto 20)) :: (checkHistoryGo hist rest (tx.id :: ids)).1,
         (checkHistoryGo hist rest (tx.id :: ids)).2)

/-- `ClasificacionAgent.check_history`. -/
def checkHistory (hist : String → List String) (clasifs0 : List Clasif) (txs : List Tx) :
    List Clasif × List Tx :=
  (clasifs0 ++ (checkHistoryGo hist txs (clasifs0.map (·.transaccion_id))).1,
   (checkHistoryGo hist txs (clasifs0.map (·.transaccion_id))).2)

/-- The external classifier's structured judgment. -/
structure LLMOut where
  categoria_pgc : String
  confianza : ℚ
  explicacion : String
deriving Repr, DecidableEq

/-- `ClasificacionAgent.llm_classify`: every remaining transaction gets an
`"llm"`-method decision from the oracle. -/
def llmClassify (llm : String → ℚ → LLMOut) (clasifs0 : List Clasif) (txs : List Tx) :
    List Clasif :=
  clasifs0 ++ txs.map (fun tx =>
    let r := llm tx.concepto tx.importe
    ⟨tx.id, r.categoria_pgc, r.confianza, "llm", r.explicacion⟩)

/-- The classification human-feedback payload
(`{"correcciones": {transaccion_id: categoria_pgc}}`). -/
structure Feedback where
  correcciones : List (String × String)
deriving Repr, DecidableEq

/-- The correction/persist body of `save_results`: a corrected decision
becomes `metodo = "manual"`, `confianza = 1.0`. -/
def saveResults (feedback : Option Feedback) (clasifs : List Clasif) : List Clasif :=
  let correcciones := match feedback with | some fb => fb.correcciones | none => []
  clasifs.map (fun c =>
    match correcciones.lookup c.transaccion_id with
    | some cat => ⟨c.transaccion_id, cat, 1, "manual", c.explicacion⟩
    | none => c)

/-- The observable outcome of one `ClasificacionAgent` graph invocation. -/
structure CascadeResult where
  status : String
  clasificaciones : List Clasif
  pendientes_revision : List Clasif
  requires_human : Bool
  persisted : List Clasif
deriving Repr, DecidableEq

/-- One invocation of the compiled graph: `load_data` (inputs) →
`apply_rules` → `check_history` → `llm_classify` → `prepare_review` →
conditional edge (`pause` iff `requires_human` and no feedback) →
`save_results`.  `persisted` lists the `db.add`ed decisions (empty when the
run pauses in review). -/
def runCascade (hist : String → List String) (llm : String → ℚ → LLMOut)
    (txs : List Tx) (reglas : List Regla) (threshold : ℚ)
    (feedback : Option Feedback) : CascadeResult :=
  let c1 := (applyRules txs reglas).1
  let p1 := (applyRules txs reglas).2
  let c2 := (checkHistory hist c1 p1).1
  let p2 := (checkHistory hist c1 p1).2
  let c3 := llmClassify llm c2 p2
  let pend := c3.filter (fun c => c.confianza < threshold)
  let requiresHuman := !pend.isEmpty
  if requiresHuman && feedback.isNone then
    { status := "review", clasificaciones := c3, pendientes_revision := pend,
      requires_human := requiresHuman, persisted := [] }
  else
    { status := "completed", clasificaciones := saveResults feedback c3,
      pendientes_revision := pend, requires_human := requiresHuman,
      persisted := saveResults feedback c3 }

/-! ## Claim theorems: validator (C5, C6) and legacy normalizer (C10) -/

/-- C5: for every input the amount parser strips currency symbols and
whitespace and then applies the separator policy — with both separators
present the later one is decimal; a lone comma within the last 3 characters
is decimal, otherwise commas are thousands separators — and the four
round-trip values hold (`1234.56 = mkRat 123456 100`, etc.). -/
theorem amount_parser_separator_policy :
    (∀ s : String,
      ((amountClean s).data.count ',' > 0 → (amountClean s).data.count '.' > 0 →
        rfindChar (amountClean s) ',' > rfindChar (amountClean s) '.' →
        amountDisambiguate (amountClean s) =
          pyReplace (pyReplace (amountClean s) "." "") "," ".") ∧
      ((amountClean s).data.count ',' > 0 → (amountClean s).data.count '.' > 0 →
        rfindChar (amountClean s) '.' > rfindChar (amountClean s) ',' →
        amountDisambiguate (amountClean s) = pyReplace (amountClean s) "," "") ∧
      ((amountClean s).data.count ',' = 1 → (amountClean s).data.count '.' = 0 →
        rfindChar (amountClean s) ',' > ((amountClean s).data.length : Int) - 4 →
        amountDisambiguate (amountClean s) = pyReplace (amountClean s) "," ".") ∧
      ((amountClean s).data.count ',' > 0 → (amountClean s).data.count '.' = 0 →
        ¬((amountClean s).data.count ',' = 1 ∧
          rfindChar (amountClean s) ',' > ((amountClean s).data.length : Int) - 4) →
        amountDisambiguate (amountClean s) = pyReplace (amountClean s) "," "")) ∧
    amountClean "€ 1.234,56" = "1.234,56" ∧
    parseAmountV "1.234,56" = .ok (mkRat 123456 100) ∧
    parseAmountV "1,234.56" = .ok (mkRat 123456 100) ∧
    parseAmountV "-123.45" = .ok (mkRat (-12345) 100) ∧
    parseAmountV "€ 1.234,56" = .ok (mkRat 123456 100) := by
  refine ⟨fun s => ⟨?_, ?_, ?_, ?_⟩, by decide, by decide, by decide, by decide, by decide⟩
  · intro h1 h2 h3
    simp only [amountDisambiguate]
    rw [if_pos (by simp [h1, h2]), if_pos (by simp [h3])]
  · intro h1 h2 h3
    simp only [amountDisambiguate]
    rw [if_pos (by simp [h1, h2]), if_neg (by omega)]
  · intro h1 h2 h3
    simp only [amountDisambiguate]
    rw [if_neg (by simp [h2]), if_pos (by simp [h1]),
      if_pos (by simp only [Bool.and_eq_true, decide_eq_true_eq]; exact ⟨h1, h3⟩)]
  · intro h1 h2 h3
    simp only [amountDisambiguate]
    rw [if_neg (by simp [h2]), if_pos (by simp [h1]),
      if_neg (by simpa only [Bool.and_eq_true, decide_eq_true_eq, not_and] using
        fun ha hb => h3 ⟨ha, hb⟩)]

/-- Witness for C5 at `"1.234,56"`: both separators present, comma later,
European normalisation applied, value `1234.56`. -/
theorem amount_parser_separator_policy_witness :
    (amountClean "1.234,56").data.count ',' > 0 ∧
    (amountClean "1.234,56").data.count '.' > 0 ∧
    rfindChar (amountClean "1.234,56") ',' > rfindChar (amountClean "1.234,56") '.' ∧
    amountDisambiguate (amountClean "1.234,56") =
      pyReplace (pyReplace (amountClean "1.234,56") "." "") "," "." ∧
    parseAmountV "1.234,56" = .ok (mkRat 123456 100) :=
  ⟨by decide, by decide, by decide,
   (amount_parser_separator_policy.1 "1.234,56").1 (by decide) (by decide) (by decide),
   amount_parser_separator_policy.2.2.1⟩

/-- The column map of the C10 scenario, as `_detect_columns` finds it. -/
def c10map : List (String × String) :=
  [("fecha", "Fecha"), ("concepto", "Concepto"), ("importe", "Importe")]

/-- A row with a malformed amount. -/
def c10bad : List (String × String) :=
  [("Fecha", "15/12/2024"), ("Concepto", "LUZ ENERO"), ("Importe", "N/A")]

/-- A well-formed row in the same batch. -/
def c10good : List (String × String) :=
  [("Fecha", "16/12/2024"), ("Concepto", "NOMINA"), ("Importe", "2.500,00")]

/-- Counterexample to C10 as stated: the malformed amount normalises to 0,
but `CSVGenericParser.parse` then hits `if importe == 0: continue`
(`csv_parser.py:86-87`), so the row is silently *dropped* — it produces no
transaction and nothing reaches the dedup/store loop — while a well-formed
row in the same batch is still stored.  No zero-amount transaction is ever
stored. -/
theorem malformed_amount_dropped_counterexample :
    normalize_amount "N/A" = 0 ∧
    csvParse c10map [c10bad] = [] ∧
    csvParse c10map [c10bad, c10good] =
      [⟨⟨2024, 12, 16⟩, "NOMINA", mkRat 2500 1, none, none, none⟩] ∧
    uploadLoop (csvParse c10map [c10bad]) (0, 0, []) = (0, 0, []) := by
  exact ⟨by decide, by decide, by decide, by decide⟩

/-- Amended C10: `BankParser.normalize_amount` is total and never raises —
empty, whitespace-only or `Decimal`-unparseable input returns 0 — and on
the standard upload path a row whose amount normalises to 0 is silently
*dropped* by the CSV parser's row loop (neither stored nor reported as a
per-record error), the rest of the batch continuing; consequently every
transaction the parser emits has a nonzero amount. -/
theorem normalize_amount_total_and_row_dropped :
    (∀ v : String, pyStrip v = "" → normalize_amount v = 0) ∧
    (∀ v : String, numLit (bankDisamb (bankClean v)) = none → normalize_amount v = 0) ∧
    (∀ cmap row : List (String × String),
      normalize_amount (dictGet row (dictGet cmap "importe" "") "0") = 0 →
      csvRowTx cmap row = none) ∧
    (∀ (cmap row : List (String × String)) (rest : List (List (String × String))),
      csvRowTx cmap row = none →
      csvParse cmap (row :: rest) = csvParse cmap rest) ∧
    (∀ (cmap row : List (String × String)) (t : TransaccionRaw),
      csvRowTx cmap row = some t → t.importe ≠ 0) ∧
    normalize_amount "" = 0 ∧
    normalize_amount "N/A" = 0 ∧
    normalize_amount "12,34" = mkRat 1234 100 := by
  refine ⟨?_, ?_, ?_, ?_, ?_, by decide, by decide, by decide⟩
  · intro v h
    simp only [normalize_amount]
    rw [if_pos (by simp [h])]
  · intro v h
    simp only [normalize_amount]
    by_cases hv : (v = "" || pyStrip v = "") = true
    · rw [if_pos hv]
    · rw [if_neg hv, h]
  · intro cmap row h
    simp only [csvRowTx]
    rw [if_pos h]
  · intro cmap row rest h
    simp [csvParse, h]
  · intro cmap row t h
    simp only [csvRowTx] at h
    by_cases h0 : normalize_amount (dictGet row (dictGet cmap "importe" "") "0") = 0
    · rw [if_pos h0] at h
      cases h
    · rw [if_neg h0] at h
      by_cases hf : dictGet row (dictGet cmap "fecha" "") "" = ""
      · rw [if_pos hf] at h
        cases h
      · rw [if_neg hf] at h
        cases hd : parseDateBP (dictGet row (dictGet cmap "fecha" "") "") with
        | none => rw [hd] at h; cases h
        | some fecha =>
          rw [hd] at h
          obtain rfl := Option.some.inj h
          simpa using h0

/-- Witness for the amended C10: the malformed `"N/A"` amount normalises to
0, its row is dropped, and the batch continues with the remaining rows. -/
theorem normalize_amount_total_and_row_dropped_witness :
    numLit (bankDisamb (bankClean "N/A")) = none ∧
    normalize_amount "N/A" = 0 ∧
    csvRowTx c10map c10bad = none ∧
    csvParse c10map [c10bad, c10good] = csvParse c10map [c10good] :=
  ⟨by decide,
   normalize_amount_total_and_row_dropped.2.1 "N/A" (by decide),
   normalize_amount_total_and_row_dropped.2.2.1 c10map c10bad (by decide),
   normalize_amount_total_and_row_dropped.2.2.2.1 c10map c10bad [c10good]
     (normalize_amount_total_and_row_dropped.2.2.1 c10map c10bad (by decide))⟩

/-- `vcGo` over an append splits, with the index advanced by the length of
the first part. -/
theorem vcGo_append (l1 l2 : List RawTx) (idx : ℕ) :
    vcGo idx (l1 ++ l2) =
      ((vcGo idx l1).1 ++ (vcGo (idx + l1.length) l2).1,
       (vcGo idx l1).2 ++ (vcGo (idx + l1.length) l2).2) := by
  induction l1 generalizing idx with
  | nil => simp [vcGo]
  | cons t rest ih =>
    have harith : idx + (t :: rest).length = (idx + 1) + rest.length := by
      simp [List.length_cons]; omega
    simp only [List.cons_append, vcGo, harith]
    cases validateTx t <;> simp [ih (idx + 1)]

/-- The validated outputs of `vcGo` do not depend on the running index. -/
theorem vcGo_fst_idx (l : List RawTx) (i j : ℕ) : (vcGo i l).1 = (vcGo j l).1 := by
  induction l generalizing i j with
  | nil => rfl
  | cons t rest ih =>
    simp only [vcGo]
    cases validateTx t <;> simp [ih (i + 1) (j + 1)]

/-- A record whose date fails to parse makes `validateTx` fail with the
same message. -/
theorem validateTx_error_of_date (tx : RawTx) (e : String)
    (h : parseDateV tx.fecha = .error e) : validateTx tx = .error e := by
  unfold validateTx
  rw [h]
  rfl

/-- C6: the three date spellings normalise to the same ISO day, and a
record with an unparseable date is collected as a per-record error (with
the raising record and message) while the rest of the batch is validated
normally and the batch ends `completed_with_errors`, never aborted. -/
theorem date_parser_canonical_and_errors :
    parseDateV "15/12/2024" = .ok "2024-12-15" ∧
    parseDateV "2024-12-15" = .ok "2024-12-15" ∧
    parseDateV "15-12-2024" = .ok "2024-12-15" ∧
    (∀ (pre post : List RawTx) (tx : RawTx) (e : String),
      parseDateV tx.fecha = .error e →
      (⟨pre.length + 1, tx, e⟩ : VError) ∈ (validateAndClean (pre ++ tx :: post)).errores ∧
      (validateAndClean (pre ++ tx :: post)).validadas =
        (validateAndClean pre).validadas ++ (validateAndClean post).validadas ∧
      (validateAndClean (pre ++ tx :: post)).status = "completed_with_errors") := by
  refine ⟨by decide, by decide, by decide, ?_⟩
  intro pre post tx e he
  have hval := validateTx_error_of_date tx e he
  have hsplit := vcGo_append pre (tx :: post) 0
  have hmid : vcGo (0 + pre.length) (tx :: post) =
      ((vcGo (0 + pre.length + 1) post).1,
       ⟨0 + pre.length + 1, tx, e⟩ :: (vcGo (0 + pre.length + 1) post).2) := by
    simp only [vcGo, hval]
  refine ⟨?_, ?_, ?_⟩
  · simp only [validateAndClean, hsplit, hmid]
    exact List.mem_append_right _ (by simp)
  · simp only [validateAndClean, hsplit, hmid]
    simp [vcGo_fst_idx post (pre.length + 1) 0, vcGo_fst_idx post (0 + pre.length + 1) 0]
  · simp only [validateAndClean, hsplit, hmid]
    rw [if_neg (by simp)]

/-- Concrete records for the C6 witness. -/
def c6bad : RawTx := ⟨"invalid_date", "X", "1", none, []⟩

/-- A well-formed record processed after the bad one. -/
def c6good : RawTx := ⟨"16/12/2024", "PAGO AMAZON", "-45,99", none, []⟩

/-- Witness for C6: a batch `[bad, good]` collects the bad record's error at
line 1, still validates the good record, and completes with errors. -/
theorem date_parser_canonical_and_errors_witness :
    parseDateV c6bad.fecha = .error "No se pudo parsear fecha: invalid_date" ∧
    (⟨1, c6bad, "No se pudo parsear fecha: invalid_date"⟩ : VError) ∈
      (validateAndClean ([] ++ c6bad :: [c6good])).errores ∧
    (validateAndClean ([] ++ c6bad :: [c6good])).validadas =
      (validateAndClean []).validadas ++ (validateAndClean [c6good]).validadas ∧
    (validateAndClean ([] ++ c6bad :: [c6good])).status = "completed_with_errors" :=
  ⟨by decide,
   (date_parser_canonical_and_errors.2.2.2 [] [c6good] c6bad
      "No se pudo parsear fecha: invalid_date" (by decide)).1,
   (date_parser_canonical_and_errors.2.2.2 [] [c6good] c6bad
      "No se pudo parsear fecha: invalid_date" (by decide)).2.1,
   (date_parser_canonical_and_errors.2.2.2 [] [c6good] c6bad
      "No se pudo parsear fecha: invalid_date" (by decide)).2.2⟩

/-! ## Claim theorems: `FileDetector` (C7) and `BaseAgent.run` (C8) -/

/-- Amended C7: a missing file raises `FileNotFoundError`; for an existing
file (of any size) an unsupported extension raises the `ValueError` whose
message names the extension and the supported set, and a supported
extension returns its `(formato, mime)` pair.  Existence is checked before
the extension. -/
theorem file_detector_behavior :
    (∀ (fs : String → Option ℕ) (mime : String → Option String) (p : String),
      fs p = none →
      fileDetect fs mime p = .notFound ("Archivo no encontrado: " ++ p)) ∧
    (∀ (fs : String → Option ℕ) (mime : String → Option String) (p : String) (n : ℕ),
      fs p = some n →
      (supportedExtensions.lookup (pyLower (pathSuffix p)) = none →
        fileDetect fs mime p = .unsupported ("Formato no soportado: " ++
          pyLower (pathSuffix p) ++ ". Soportados: " ++
          joinComma (supportedExtensions.map (·.1)))) ∧
      (∀ fmt, supportedExtensions.lookup (pyLower (pathSuffix p)) = some fmt →
        ∃ m, fileDetect fs mime p = .found fmt m)) := by
  refine ⟨?_, ?_⟩
  · intro fs mime p h
    simp only [fileDetect, h]
  · intro fs mime p n h
    refine ⟨?_, ?_⟩
    · intro hlk
      simp only [fileDetect, h, hlk]
    · intro fmt hlk
      refine ⟨match mime p with
              | some m => if m = "" then "application/octet-stream" else m
              | none => "application/octet-stream", ?_⟩
      simp only [fileDetect, h, hlk]

/-- Witness for C7's amended behavior: a missing path, an existing `.bin`
file rejected with the message naming `.bin` and the supported list, and an
existing `.csv` file detected. -/
theorem file_detector_behavior_witness :
    fileDetect (fun _ => none) (fun _ => none) "no_existe.csv" =
      .notFound "Archivo no encontrado: no_existe.csv" ∧
    fileDetect (fun _ => some 3) (fun _ => none) "f.bin" =
      .unsupported ("Formato no soportado: .bin. Soportados: " ++
        joinComma (supportedExtensions.map (·.1))) ∧
    ∃ m, fileDetect (fun _ => some 3) (fun _ => none) "f.csv" = .found "csv" m :=
  ⟨(file_detector_behavior.1 (fun _ => none) (fun _ => none) "no_existe.csv" rfl),
   (file_detector_behavior.2 (fun _ => some 3) (fun _ => none) "f.bin" 3 rfl).1 (by decide),
   (file_detector_behavior.2 (fun _ => some 3) (fun _ => none) "f.csv" 3 rfl).2 "csv" (by decide)⟩

/-- The filesystem oracle of the C7 counterexample: `cero.csv` exists with
size 0. -/
def fsZero : String → Option ℕ := fun p => if p = "cero.csv" then some 0 else none

/-- Counterexample to C7 as stated: a zero-byte existing file is *not*
rejected with `SourceNotFound` — detection succeeds on it. -/
theorem file_detector_zero_byte_counterexample :
    fsZero "cero.csv" = some 0 ∧
    fileDetect fsZero (fun _ => none) "cero.csv" = .found "csv" "application/octet-stream" := by
  exact ⟨by decide, by decide⟩

/-- The C8 scenario: the first stage makes progress (payload 42), the
second raises. -/
def c8steps : List (AgSt ℕ → Except String (AgSt ℕ)) :=
  [fun s => .ok { s with status := "processing", payload := 42 },
   fun _ => .error "boom"]

/-- Its initial state. -/
def c8init : AgSt ℕ := ⟨"loading", none, 0⟩

/-- Counterexample to C8 as stated: the returned state after a fault is the
*initial* state (payload 0) plus the fault fields, not the last good state
(payload 42) — intermediate stage progress is discarded. -/
theorem agent_error_state_counterexample :
    runSteps c8steps c8init = .error "boom" ∧
    lastGoodState c8steps c8init = ⟨"processing", none, 42⟩ ∧
    runAgent c8steps c8init = ⟨"error", some "boom", 0⟩ ∧
    (runAgent c8steps c8init).payload ≠ (lastGoodState c8steps c8init).payload := by
  exact ⟨by decide, by decide, by decide, by decide⟩

/-- Amended C8: a faulting run ends with `status = "error"`, carries the
fault description (never silently swallowed), and preserves the initial
input state; a fault-free run returns the pipeline's final state. -/
theorem agent_error_amended {α : Type} (steps : List (AgSt α → Except String (AgSt α)))
    (init : AgSt α) (e : String) (h : runSteps steps init = .error e) :
    runAgent steps init = { init with status := "error", error := some e } ∧
    (runAgent steps init).status = "error" ∧
    (runAgent steps init).error = some e ∧
    (runAgent steps init).payload = init.payload := by
  unfold runAgent
  rw [h]
  exact ⟨rfl, rfl, rfl, rfl⟩

/-- Witness for the amended C8 at the concrete two-stage scenario. -/
theorem agent_error_amended_witness :
    runAgent c8steps c8init = { c8init with status := "error", error := some "boom" } ∧
    (runAgent c8steps c8init).status = "error" ∧
    (runAgent c8steps c8init).error = some "boom" ∧
    (runAgent c8steps c8init).payload = c8init.payload :=
  agent_error_amended c8steps c8init "boom" (by decide)

/-! ## Claim theorems: guided CSV extraction (C9) -/

/-- The structure of the C9 scenarios: no header; date, text and two
numeric (debit/credit) columns. -/
def c9est : Estructura := ⟨false, [⟨0, "fecha"⟩, ⟨1, "texto"⟩, ⟨2, "numero"⟩, ⟨3, "numero"⟩]⟩

/-- Counterexample to C9 as stated: a row whose debit cell is `"0.00"` —
which denotes zero (the validator parses it to 0) — with an empty credit is
*not* skipped: the literal-zero test only recognises `''`, `'0'` and
`'0,00'`, so the row yields the amount string `"-0.00"`. -/
theorem debit_zero_not_skipped_counterexample :
    parseAmountV "0.00" = .ok 0 ∧
    csvExtractLLM c9est [["15/12/2024", "CUOTA SOCIO", "0.00", ""]] =
      .ok [{ fecha := "15/12/2024", concepto := "CUOTA SOCIO", importe := "-0.00",
             referencia := none,
             metadata := [("linea", "2"), ("formato", "csv"),
                          ("extractor", "llm-guided"), ("llm_estructura", "True")] }] := by
  exact ⟨by decide, by decide⟩

/-- Amended C9: with two (or more) numeric columns, a row is skipped
exactly when each of debit and credit is empty or the *literal* `'0'` or
`'0,00'`; a debit outside that set yields `"-" ++ debit`, else such a credit
is taken as-is; a skipped row leaves the rest of the batch untouched; and
on a concrete batch the debit row parses to a negative amount, the credit
row to a positive one, and the literal-zero row is dropped. -/
theorem debit_credit_pair_rule :
    (∀ (i0 i1 : ℕ) (rest : List ℕ) (row : List String),
      (cellAt row i0 = "" ∨ cellAt row i0 = "0" ∨ cellAt row i0 = "0,00") →
      (cellAt row i1 = "" ∨ cellAt row i1 = "0" ∨ cellAt row i1 = "0,00") →
      importeOfRow (i0 :: i1 :: rest) row = none) ∧
    (∀ (i0 i1 : ℕ) (rest : List ℕ) (row : List String),
      ¬(cellAt row i0 = "" ∨ cellAt row i0 = "0" ∨ cellAt row i0 = "0,00") →
      importeOfRow (i0 :: i1 :: rest) row = some ("-" ++ cellAt row i0)) ∧
    (∀ (i0 i1 : ℕ) (rest : List ℕ) (row : List String),
      (cellAt row i0 = "" ∨ cellAt row i0 = "0" ∨ cellAt row i0 = "0,00") →
      ¬(cellAt row i1 = "" ∨ cellAt row i1 = "0" ∨ cellAt row i1 = "0,00") →
      importeOfRow (i0 :: i1 :: rest) row = some (cellAt row i1)) ∧
    (∀ (f : ℕ) (ci ri : Option ℕ) (idx : List ℕ) (n : ℕ) (row : List String)
        (rest : List (List String)),
      importeOfRow idx row = none →
      extractRowsGo f ci ri idx n (row :: rest) = extractRowsGo f ci ri idx (n + 1) rest) ∧
    csvExtractLLM c9est
        [["15/12/2024", "LUZ", "45,99", ""],
         ["16/12/2024", "NOMINA", "", "2.500,00"],
         ["17/12/2024", "VACIA", "0", "0,00"]] =
      .ok [{ fecha := "15/12/2024", concepto := "LUZ", importe := "-45,99",
             referencia := none,
             metadata := [("linea", "2"), ("formato", "csv"),
                          ("extractor", "llm-guided"), ("llm_estructura", "True")] },
           { fecha := "16/12/2024", concepto := "NOMINA", importe := "2.500,00",
             referencia := none,
             metadata := [("linea", "3"), ("formato", "csv"),
                          ("extractor", "llm-guided"), ("llm_estructura", "True")] }] ∧
    parseAmountV "-45,99" = .ok (mkRat (-4599) 100) ∧
    parseAmountV "2.500,00" = .ok (mkRat 2500 1) := by
  refine ⟨?_, ?_, ?_, ?_, by decide, by decide, by decide⟩
  · intro i0 i1 rest row hd hh
    rcases hd with h | h | h <;> rcases hh with h2 | h2 | h2 <;>
      simp [importeOfRow, h, h2]
  · intro i0 i1 rest row hd
    push_neg at hd
    simp [importeOfRow, hd.1, hd.2.1, hd.2.2]
  · intro i0 i1 rest row hd hh
    push_neg at hh
    rcases hd with h | h | h <;> simp [importeOfRow, h, hh.1, hh.2.1, hh.2.2]
  · intro f ci ri idx n row rest himp
    simp only [extractRowsGo, himp]
    split <;> rfl

/-- Witness for the amended C9 at concrete rows: skip, debit and credit
cases, and the skipped row leaving the batch unchanged. -/
theorem debit_credit_pair_rule_witness :
    importeOfRow [2, 3] ["17/12/2024", "VACIA", "0", "0,00"] = none ∧
    importeOfRow [2, 3] ["15/12/2024", "LUZ", "45,99", ""] = some "-45,99" ∧
    importeOfRow [2, 3] ["16/12/2024", "NOMINA", "", "2.500,00"] = some "2.500,00" ∧
    extractRowsGo 0 (some 1) none [2, 3] 2 [["17/12/2024", "VACIA", "0", "0,00"]] =
      extractRowsGo 0 (some 1) none [2, 3] 3 [] :=
  ⟨debit_credit_pair_rule.1 2 3 [] _ (by decide) (by decide),
   debit_credit_pair_rule.2.1 2 3 [] _ (by decide),
   debit_credit_pair_rule.2.2.1 2 3 [] _ (by decide) (by decide),
   debit_credit_pair_rule.2.2.2.1 0 (some 1) none [2, 3] 2 _ []
     (debit_credit_pair_rule.1 2 3 [] _ (by decide) (by decide))⟩

/-! ## Claim theorems: content-addressed deduplication (C4) -/

/-- After a `dedupLoop` run, every hash that was stored is still stored. -/
theorem dedupLoop_mem_preserved {τ : Type} (hashOf : τ → String) (txs : List τ)
    (cr du : ℕ) (ex : List String) (h : String) (hh : h ∈ ex) :
    h ∈ (dedupLoop hashOf txs (cr, du, ex)).2.2 := by
  induction txs generalizing cr du ex with
  | nil => exact hh
  | cons t rest ih =>
    simp only [dedupLoop]
    by_cases hc : ex.contains (hashOf t) = true
    · rw [if_pos hc]; exact ih cr (du + 1) ex hh
    · rw [if_neg hc]; exact ih (cr + 1) du (ex ++ [hashOf t]) (List.mem_append_left _ hh)

/-- After a `dedupLoop` run, every processed transaction's hash is stored. -/
theorem dedupLoop_hash_mem {τ : Type} (hashOf : τ → String) (txs : List τ)
    (cr du : ℕ) (ex : List String) (t : τ) (ht : t ∈ txs) :
    hashOf t ∈ (dedupLoop hashOf txs (cr, du, ex)).2.2 := by
  induction txs generalizing cr du ex with
  | nil => cases ht
  | cons t0 rest ih =>
    simp only [dedupLoop]
    rcases List.mem_cons.mp ht with rfl | hmem
    · by_cases hc : ex.contains (hashOf t) = true
      · rw [if_pos hc]
        exact dedupLoop_mem_preserved hashOf rest cr (du + 1) ex _ (List.elem_iff.mp hc)
      · rw [if_neg hc]
        exact dedupLoop_mem_preserved hashOf rest (cr + 1) du _ _
          (List.mem_append_right _ (List.mem_singleton_self _))
    · by_cases hc : ex.contains (hashOf t0) = true
      · rw [if_pos hc]; exact ih cr (du + 1) ex hmem
      · rw [if_neg hc]; exact ih (cr + 1) du (ex ++ [hashOf t0]) hmem

/-- If every transaction's hash is already stored, the loop creates nothing
and counts every record as a duplicate. -/
theorem dedupLoop_all_duplicates {τ : Type} (hashOf : τ → String) (txs : List τ)
    (cr du : ℕ) (ex : List String) (hall : ∀ t ∈ txs, hashOf t ∈ ex) :
    dedupLoop hashOf txs (cr, du, ex) = (cr, du + txs.length, ex) := by
  induction txs generalizing du with
  | nil => simp [dedupLoop]
  | cons t rest ih =>
    simp only [dedupLoop]
    rw [if_pos (List.elem_iff.mpr (hall t (List.mem_cons_self t rest)))]
    rw [ih (du + 1) (fun t' ht' => hall t' (List.mem_cons_of_mem t ht'))]
    simp [List.length_cons]
    omega

/-- Amended C4: each upload path's hash depends on exactly its inputs —
`/upload` on (date, description, amount, reference), with `saldo` and
`fecha_valor` excluded; `/upload-smart` on (date, description, amount)
only, the reference excluded — and re-running either dedup loop over an
unchanged input set creates zero new records, counting every record as a
duplicate. -/
theorem dedup_hash_inputs_and_idempotence :
    (∀ t t' : TransaccionRaw, t.fecha = t'.fecha → t.concepto = t'.concepto →
      t.importe = t'.importe → t.referencia = t'.referencia →
      t.compute_hash = t'.compute_hash) ∧
    (∀ v v' : ValidTx, v.fecha = v'.fecha → v.concepto = v'.concepto →
      v.importe = v'.importe → smartHash v = smartHash v') ∧
    (∀ (txs : List TransaccionRaw) (ex : List String),
      uploadLoop txs (0, 0, (uploadLoop txs (0, 0, ex)).2.2) =
        (0, txs.length, (uploadLoop txs (0, 0, ex)).2.2)) ∧
    (∀ (vs : List ValidTx) (ex : List String),
      smartLoop vs (0, 0, (smartLoop vs (0, 0, ex)).2.2) =
        (0, vs.length, (smartLoop vs (0, 0, ex)).2.2)) := by
  refine ⟨?_, ?_, ?_, ?_⟩
  · intro t t' h1 h2 h3 h4
    simp [TransaccionRaw.compute_hash, h1, h2, h3, h4]
  · intro v v' h1 h2 h3
    simp [smartHash, h1, h2, h3]
  · intro txs ex
    have hmem : ∀ t ∈ txs, t.compute_hash ∈ (uploadLoop txs (0, 0, ex)).2.2 := by
      intro t ht
      simpa [uploadLoop] using dedupLoop_hash_mem TransaccionRaw.compute_hash txs 0 0 ex t ht
    simpa [uploadLoop] using
      dedupLoop_all_duplicates TransaccionRaw.compute_hash txs 0 0 _ hmem
  · intro vs ex
    have hmem : ∀ v ∈ vs, smartHash v ∈ (smartLoop vs (0, 0, ex)).2.2 := by
      intro v hv
      simpa [smartLoop] using dedupLoop_hash_mem smartHash vs 0 0 ex v hv
    simpa [smartLoop] using dedupLoop_all_duplicates smartHash vs 0 0 _ hmem

/-- The C4 transaction as `/upload` parses it. -/
def c4raw : TransaccionRaw :=
  ⟨⟨2024, 12, 15⟩, "PAGO LUZ", mkRat 1005 10, none, some "REF1", none⟩

/-- The same semantic transaction as `/upload-smart` validates it. -/
def c4valid : ValidTx := ⟨"2024-12-15", "PAGO LUZ", mkRat 1005 10, some "REF1", []⟩

/-- The same transaction with a different reference. -/
def c4valid2 : ValidTx := ⟨"2024-12-15", "PAGO LUZ", mkRat 1005 10, some "REF2", []⟩

/-- Counterexample to C4 as stated: the two upload paths hash the same
semantic transaction differently (truncated SHA-256 with the reference vs.
MD5 without it), so uploading it through `/upload` and then `/upload-smart`
stores it twice — the second upload is not detected as a duplicate.
Moreover the smart hash ignores the reference, so two transactions
differing only in reference are conflated into a single stored record. -/
theorem dedup_cross_path_counterexample :
    c4raw.compute_hash = "8110896e7cdc4d1e" ∧
    smartHash c4valid = "052c039a83d9c3763585fd9575af8d40" ∧
    c4raw.compute_hash ≠ smartHash c4valid ∧
    uploadLoop [c4raw] (0, 0, []) = (1, 0, ["8110896e7cdc4d1e"]) ∧
    smartLoop [c4valid] (0, 0, ["8110896e7cdc4d1e"]) =
      (1, 0, ["8110896e7cdc4d1e", "052c039a83d9c3763585fd9575af8d40"]) ∧
    c4valid.referencia ≠ c4valid2.referencia ∧
    smartHash c4valid = smartHash c4valid2 ∧
    smartLoop [c4valid, c4valid2] (0, 0, []) =
      (1, 1, ["052c039a83d9c3763585fd9575af8d40"]) := by
  exact ⟨by decide, by decide, by decide, by decide, by decide, by decide, by decide, by decide⟩

/-- Witness for the amended C4: hashes agree across incidental-field
changes, and a re-run of `/upload`'s loop on an unchanged batch creates 0
records. -/
theorem dedup_hash_inputs_and_idempotence_witness :
    (⟨⟨2024, 12, 15⟩, "PAGO LUZ", mkRat 1005 10, some (mkRat 5 1), some "REF1",
        some ⟨2024, 12, 16⟩⟩ : TransaccionRaw).compute_hash = c4raw.compute_hash ∧
    uploadLoop [c4raw] (0, 0, (uploadLoop [c4raw] (0, 0, [])).2.2) =
      (0, 1, (uploadLoop [c4raw] (0, 0, [])).2.2) :=
  ⟨dedup_hash_inputs_and_idempotence.1 _ c4raw rfl rfl rfl rfl,
   dedup_hash_inputs_and_idempotence.2.2.1 [c4raw] []⟩

/-! ## Cascade lemmas (toward C1, C2, C3) -/

/-- Two booleans agreeing as propositions are equal. -/
theorem bool_eq_of_iff {a b : Bool} (h : a = true ↔ b = true) : a = b := by
  cases a <;> cases b <;> simp_all

/-- The decision ids produced by the rule loop are exactly its matched-id
accumulator. -/
theorem applyRulesGo_fst_map_tid (reglas : List Regla) (txs : List Tx) :
    (applyRulesGo reglas txs).1.map (·.transaccion_id) = (applyRulesGo reglas txs).2 := by
  induction txs with
  | nil => rfl
  | cons t rest ih =>
    simp only [applyRulesGo]
    cases h : reglas.find? (fun r => matchRule t r.condicion) <;> simp [ih, ruleDecision]

/-- The matched-id accumulator lists the ids of the transactions some rule
matches, in order. -/
theorem applyRulesGo_snd_eq (reglas : List Regla) (txs : List Tx) :
    (applyRulesGo reglas txs).2 =
      (txs.filter (fun t => (reglas.find? (fun r => matchRule t r.condicion)).isSome)).map
        Tx.id := by
  induction txs with
  | nil => rfl
  | cons t rest ih =>
    simp only [applyRulesGo, List.filter_cons]
    cases h : reglas.find? (fun r => matchRule t r.condicion) <;> simp [h, ih]

/-- The rule-phase decisions, as a `filterMap` over the transactions. -/
theorem applyRulesGo_fst_eq (reglas : List Regla) (txs : List Tx) :
    (applyRulesGo reglas txs).1 =
      txs.filterMap
        (fun t => (reglas.find? (fun r => matchRule t r.condicion)).map (ruleDecision t)) := by
  induction txs with
  | nil => rfl
  | cons t rest ih =>
    simp only [applyRulesGo, List.filterMap_cons]
    cases h : reglas.find? (fun r => matchRule t r.condicion) <;> simp [h, ih]

/-- With distinct transaction ids, membership in the matched-id set is
exactly "some rule matches this transaction". -/
theorem applyRules_ids_iff (reglas : List Regla) (txs : List Tx) (t : Tx)
    (hnd : (txs.map Tx.id).Nodup) (ht : t ∈ txs) :
    (applyRulesGo reglas txs).2.contains t.id = true ↔
      (reglas.find? (fun r => matchRule t r.condicion)).isSome = true := by
  rw [applyRulesGo_snd_eq, List.elem_iff]
  constructor
  · intro hmem
    obtain ⟨t', ht', hid⟩ := List.mem_map.mp hmem
    obtain ⟨ht'mem, hp⟩ := List.mem_filter.mp ht'
    have : t' = t := List.inj_on_of_nodup_map hnd ht'mem ht hid
    exact this ▸ hp
  · intro hp
    exact List.mem_map.mpr ⟨t, List.mem_filter.mpr ⟨ht, hp⟩, rfl⟩

/-- With distinct ids, the remaining transactions after the rule phase are
those no rule matches. -/
theorem applyRules_snd_eq (reglas : List Regla) (txs : List Tx)
    (hnd : (txs.map Tx.id).Nodup) :
    (applyRules txs reglas).2 =
      txs.filter (fun t => !(reglas.find? (fun r => matchRule t r.condicion)).isSome) := by
  refine List.filter_congr ?_
  intro t ht
  have := applyRules_ids_iff reglas txs t hnd ht
  have heq : (applyRulesGo reglas txs).2.contains t.id =
      (reglas.find? (fun r => matchRule t r.condicion)).isSome := bool_eq_of_iff this
  rw [heq]

/-- With distinct ids, the rule phase partitions the batch: decision ids
plus pending ids are a permutation of the input ids. -/
theorem applyRules_perm (reglas : List Regla) (txs : List Tx)
    (hnd : (txs.map Tx.id).Nodup) :
    ((applyRules txs reglas).1.map (·.transaccion_id) ++
      (applyRules txs reglas).2.map Tx.id).Perm (txs.map Tx.id) := by
  have h1 : (applyRules txs reglas).1.map (·.transaccion_id) =
      (txs.filter (fun t => (reglas.find? (fun r => matchRule t r.condicion)).isSome)).map
        Tx.id := by
    show (applyRulesGo reglas txs).1.map (·.transaccion_id) = _
    rw [applyRulesGo_fst_map_tid, applyRulesGo_snd_eq]
  rw [h1, applyRules_snd_eq reglas txs hnd, ← List.map_append]
  exact (List.filter_append_perm _ txs).map Tx.id

/-- Pending transactions keep distinct ids. -/
theorem applyRules_pend_nodup (reglas : List Regla) (txs : List Tx)
    (hnd : (txs.map Tx.id).Nodup) :
    ((applyRules txs reglas).2.map Tx.id).Nodup :=
  hnd.sublist ((List.filter_sublist txs).map Tx.id)

/-- No pending transaction's id is among the rule-phase decision ids. -/
theorem applyRules_pend_not_classified (reglas : List Regla) (txs : List Tx)
    (t : Tx) (ht : t ∈ (applyRules txs reglas).2) :
    ((applyRules txs reglas).1.map (·.transaccion_id)).contains t.id = false := by
  have hprop := (List.mem_filter.mp ht).2
  have : (applyRulesGo reglas txs).2.contains t.id = false := by
    simpa using hprop
  show ((applyRulesGo reglas txs).1.map (·.transaccion_id)).contains t.id = false
  rw [applyRulesGo_fst_map_tid]
  exact this

/-- The history phase partitions its input: decision ids plus pending ids
permute the incoming ids, provided none of them was already classified and
ids are distinct. -/
theorem checkHistoryGo_perm (hist : String → List String) (txs : List Tx)
    (ids : List String) (hdisj : ∀ t ∈ txs, ids.contains t.id = false)
    (hnd : (txs.map Tx.id).Nodup) :
    ((checkHistoryGo hist txs ids).1.map (·.transaccion_id) ++
      (checkHistoryGo hist txs ids).2.map Tx.id).Perm (txs.map Tx.id) := by
  induction txs generalizing ids with
  | nil => simp [checkHistoryGo]
  | cons tx rest ih =>
    have hskip : ids.contains tx.id = false := hdisj tx (List.mem_cons_self tx rest)
    have hnd0 : tx.id ∉ rest.map Tx.id := by
      have := hnd
      simp only [List.map_cons, List.nodup_cons] at this
      exact this.1
    have hnd' : (rest.map Tx.id).Nodup := by
      have := hnd
      simp only [List.map_cons, List.nodup_cons] at this
      exact this.2
    simp only [checkHistoryGo, hskip]
    rw [if_neg (by simp)]
    by_cases hh : (hist (pyTake tx.concepto 20)).isEmpty = true
    · rw [if_pos hh]
      have ihr := ih ids (fun t htr => hdisj t (List.mem_cons_of_mem tx htr)) hnd'
      simp only [List.map_cons]
      exact List.Perm.trans List.perm_middle (ihr.cons tx.id)
    · rw [if_neg hh]
      have hdisj' : ∀ t ∈ rest, (tx.id :: ids).contains t.id = false := by
        intro t htr
        have hne : t.id ≠ tx.id := by
          intro heq
          exact hnd0 (heq ▸ List.mem_map.mpr ⟨t, htr, rfl⟩)
        have hc := hdisj t (List.mem_cons_of_mem tx htr)
        rw [List.contains_cons, hc, Bool.or_false]
        exact beq_eq_false_iff_ne.mpr hne
      have ihr := ih (tx.id :: ids) hdisj' hnd'
      simp only [List.map_cons, histDecision, List.cons_append]
      exact ihr.cons tx.id

/-- Every history-phase decision names one of the incoming transactions. -/
theorem checkHistoryGo_fst_sub (hist : String → List String) (txs : List Tx)
    (ids : List String) (c : Clasif) (hc : c ∈ (checkHistoryGo hist txs ids).1) :
    c.transaccion_id ∈ txs.map Tx.id := by
  induction txs generalizing ids with
  | nil => simp [checkHistoryGo] at hc
  | cons tx rest ih =>
    simp only [checkHistoryGo] at hc
    by_cases hskip : ids.contains tx.id = true
    · rw [if_pos (by simpa using hskip)] at hc
      exact List.mem_cons_of_mem _ (ih ids hc)
    · rw [if_neg (by simpa using hskip)] at hc
      by_cases hh : (hist (pyTake tx.concepto 20)).isEmpty = true
      · rw [if_pos hh] at hc
        exact List.mem_cons_of_mem _ (ih ids hc)
      · rw [if_neg hh] at hc
        rcases List.mem_cons.mp hc with rfl | hmem
        · simp [histDecision]
        · exact List.mem_cons_of_mem _ (ih (tx.id :: ids) hmem)

/-- The history phase's pending list is a sublist of its input. -/
theorem checkHistoryGo_snd_sublist (hist : String → List String) (txs : List Tx)
    (ids : List String) : ((checkHistoryGo hist txs ids).2).Sublist txs := by
  induction txs generalizing ids with
  | nil => simp [checkHistoryGo]
  | cons tx rest ih =>
    simp only [checkHistoryGo]
    by_cases hskip : ids.contains tx.id = true
    · rw [if_pos (by simpa using hskip)]
      exact (ih ids).cons tx
    · rw [if_neg (by simpa using hskip)]
      by_cases hh : (hist (pyTake tx.concepto 20)).isEmpty = true
      · rw [if_pos hh]
        exact (ih ids).cons₂ tx
      · rw [if_neg hh]
        exact (ih (tx.id :: ids)).cons tx

/-- `save_results` never changes which transaction a decision names. -/
theorem saveResults_map_tid (fb : Option Feedback) (l : List Clasif) :
    (saveResults fb l).map (·.transaccion_id) = l.map (·.transaccion_id) := by
  induction l with
  | nil => rfl
  | cons c rest ih =>
    simp only [saveResults, List.map_cons] at ih ⊢
    cases (match fb with | some f => f.correcciones | none => []).lookup c.transaccion_id <;>
      simp [ih]

/-- Without feedback there are no corrections and `save_results` persists
the decisions unchanged. -/
theorem saveResults_none (l : List Clasif) : saveResults none l = l := by
  induction l with
  | nil => rfl
  | cons c rest ih => simp [saveResults, List.lookup]

/-- The LLM phase appends one decision per remaining transaction. -/
theorem llmClassify_map_tid (llm : String → ℚ → LLMOut) (cs : List Clasif) (txs : List Tx) :
    (llmClassify llm cs txs).map (·.transaccion_id) =
      cs.map (·.transaccion_id) ++ txs.map Tx.id := by
  simp [llmClassify, List.map_map, Function.comp]

/-- Counting decisions for an id equals counting that id among the decision
ids. -/
theorem countP_tid_eq_count_map (l : List Clasif) (x : String) :
    l.countP (fun c => c.transaccion_id = x) = (l.map (·.transaccion_id)).count x := by
  induction l with
  | nil => rfl
  | cons c rest ih =>
    simp only [List.countP_cons, List.map_cons, List.count_cons, ih]
    by_cases h : c.transaccion_id = x <;> simp [h]

/-- Whatever the feedback, a run's decision list names the same ids as the
LLM-phase output. -/
theorem runCascade_map_tid (hist : String → List String) (llm : String → ℚ → LLMOut)
    (txs : List Tx) (reglas : List Regla) (T : ℚ) (fb : Option Feedback) :
    (runCascade hist llm txs reglas T fb).clasificaciones.map (·.transaccion_id) =
      (llmClassify llm
        (checkHistory hist (applyRules txs reglas).1 (applyRules txs reglas).2).1
        (checkHistory hist (applyRules txs reglas).1 (applyRules txs reglas).2).2).map
          (·.transaccion_id) := by
  simp only [runCascade]
  split
  · rfl
  · exact saveResults_map_tid fb _

/-- A feedback-free run's decision list is exactly the LLM-phase output. -/
theorem runCascade_clasif_none (hist : String → List String) (llm : String → ℚ → LLMOut)
    (txs : List Tx) (reglas : List Regla) (T : ℚ) :
    (runCascade hist llm txs reglas T none).clasificaciones =
      llmClassify llm
        (checkHistory hist (applyRules txs reglas).1 (applyRules txs reglas).2).1
        (checkHistory hist (applyRules txs reglas).1 (applyRules txs reglas).2).2 := by
  simp only [runCascade]
  split
  · rfl
  · exact saveResults_none _

/-- With distinct input ids, every run's decision ids are a permutation of
the input ids: nothing dropped, nothing decided twice. -/
theorem runCascade_perm (hist : String → List String) (llm : String → ℚ → LLMOut)
    (txs : List Tx) (reglas : List Regla) (T : ℚ) (fb : Option Feedback)
    (hnd : (txs.map Tx.id).Nodup) :
    ((runCascade hist llm txs reglas T fb).clasificaciones.map (·.transaccion_id)).Perm
      (txs.map Tx.id) := by
  rw [runCascade_map_tid]
  have h6 := applyRules_perm reglas txs hnd
  have hdisj : ∀ t ∈ (applyRules txs reglas).2,
      ((applyRules txs reglas).1.map (·.transaccion_id)).contains t.id = false :=
    fun t ht => applyRules_pend_not_classified reglas txs t ht
  have h9 := checkHistoryGo_perm hist (applyRules txs reglas).2
    ((applyRules txs reglas).1.map (·.transaccion_id)) hdisj
    (applyRules_pend_nodup reglas txs hnd)
  rw [llmClassify_map_tid]
  show ((checkHistory hist (applyRules txs reglas).1 (applyRules txs reglas).2).1.map
      (·.transaccion_id) ++ _).Perm _
  simp only [checkHistory, List.map_append]
  rw [List.append_assoc]
  exact ((h9.append_left _).trans h6)

/-- `find?` splits its list at the first hit: everything before fails the
predicate. -/
theorem find?_split {α : Type} (p : α → Bool) (l : List α) (r : α)
    (h : l.find? p = some r) :
    ∃ pre suf, l = pre ++ r :: suf ∧ ∀ a ∈ pre, p a = false := by
  induction l with
  | nil => simp [List.find?] at h
  | cons a rest ih =>
    cases hpa : p a with
    | true =>
      rw [List.find?_cons_of_pos _ hpa] at h
      obtain rfl := Option.some.inj h
      exact ⟨[], rest, rfl, by simp⟩
    | false =>
      rw [List.find?_cons_of_neg _ (by simp [hpa])] at h
      obtain ⟨pre, suf, rfl, hall⟩ := ih h
      refine ⟨a :: pre, suf, rfl, ?_⟩
      intro b hb
      rcases List.mem_cons.mp hb with rfl | hbm
      · exact hpa
      · exact hall b hbm

/-- Decisions naming no transaction with the given id filter to nothing. -/
theorem filter_tid_nil (l : List Clasif) (x : String)
    (h : ∀ c ∈ l, c.transaccion_id ≠ x) :
    l.filter (fun d => d.transaccion_id = x) = [] := by
  rw [List.filter_eq_nil_iff]
  intro c hc
  simpa using h c hc

/-- With distinct ids, the rule phase records exactly one decision for a
matched transaction: the one from its first matching rule. -/
theorem applyRulesGo_filter_eq (reglas : List Regla) (txs : List Tx) (t : Tx) (r : Regla)
    (hnd : (txs.map Tx.id).Nodup) (ht : t ∈ txs)
    (hr : reglas.find? (fun rr => matchRule t rr.condicion) = some r) :
    (applyRulesGo reglas txs).1.filter (fun d => d.transaccion_id = t.id) =
      [ruleDecision t r] := by
  induction txs with
  | nil => cases ht
  | cons t0 rest ih =>
    have hnd0 : t0.id ∉ rest.map Tx.id := by
      simp only [List.map_cons, List.nodup_cons] at hnd
      exact hnd.1
    have hnd' : (rest.map Tx.id).Nodup := by
      simp only [List.map_cons, List.nodup_cons] at hnd
      exact hnd.2
    rcases List.mem_cons.mp ht with rfl | hmem
    · simp only [applyRulesGo, hr]
      rw [List.filter_cons_of_pos (by simp [ruleDecision])]
      have hnil : (applyRulesGo reglas rest).1.filter
          (fun d => d.transaccion_id = t.id) = [] := by
        apply filter_tid_nil
        intro c hc
        have hmm : c.transaccion_id ∈ (applyRulesGo reglas rest).1.map (·.transaccion_id) :=
          List.mem_map.mpr ⟨c, hc, rfl⟩
        rw [applyRulesGo_fst_map_tid, applyRulesGo_snd_eq] at hmm
        have hmem2 : c.transaccion_id ∈ rest.map Tx.id :=
          ((List.filter_sublist rest).map Tx.id).subset hmm
        intro heq
        exact hnd0 (heq ▸ hmem2)
      rw [hnil]
    · have hne : t0.id ≠ t.id := by
        intro heq
        exact hnd0 (heq ▸ List.mem_map.mpr ⟨t, hmem, rfl⟩)
      cases h0 : reglas.find? (fun rr => matchRule t0 rr.condicion) with
      | none =>
        simp only [applyRulesGo, h0]
        exact ih hnd' hmem
      | some r0 =>
        simp only [applyRulesGo, h0]
        rw [List.filter_cons_of_neg (by simp [ruleDecision, hne])]
        exact ih hnd' hmem

/-- In a feedback-free run, a transaction matched by a rule carries exactly
its rule decision through the whole cascade: the history and LLM phases
add nothing for it. -/
theorem cascade_unique_rule_decision (hist : String → List String)
    (llm : String → ℚ → LLMOut) (txs : List Tx) (reglas : List Regla) (T : ℚ)
    (t : Tx) (r : Regla) (hnd : (txs.map Tx.id).Nodup) (ht : t ∈ txs)
    (hr : reglas.find? (fun rr => matchRule t rr.condicion) = some r) :
    (runCascade hist llm txs reglas T none).clasificaciones.filter
      (fun d => d.transaccion_id = t.id) = [ruleDecision t r] := by
  rw [runCascade_clasif_none]
  have htid_ids : t.id ∈ (applyRulesGo reglas txs).2 := by
    rw [applyRulesGo_snd_eq]
    exact List.mem_map.mpr ⟨t, List.mem_filter.mpr ⟨ht, by simp [hr]⟩, rfl⟩
  have hp1 : ∀ t' ∈ (applyRules txs reglas).2, t'.id ≠ t.id := by
    intro t' ht' heq
    have hcf := (List.mem_filter.mp ht').2
    rw [heq] at hcf
    exact absurd (List.elem_iff.mpr htid_ids) (by simpa using hcf)
  simp only [llmClassify, checkHistory, List.filter_append]
  have hA : (applyRules txs reglas).1.filter (fun d => d.transaccion_id = t.id) =
      [ruleDecision t r] := applyRulesGo_filter_eq reglas txs t r hnd ht hr
  have hB : ((checkHistoryGo hist (applyRules txs reglas).2
        ((applyRules txs reglas).1.map (·.transaccion_id))).1.filter
      (fun d => d.transaccion_id = t.id)) = [] := by
    apply filter_tid_nil
    intro c hc
    have := checkHistoryGo_fst_sub hist _ _ c hc
    obtain ⟨t', ht', hid⟩ := List.mem_map.mp this
    intro heq
    exact hp1 t' ht' (hid.trans heq)
  have hC : (((checkHistoryGo hist (applyRules txs reglas).2
        ((applyRules txs reglas).1.map (·.transaccion_id))).2.map
      (fun tx => (⟨tx.id, (llm tx.concepto tx.importe).categoria_pgc,
        (llm tx.concepto tx.importe).confianza, "llm",
        (llm tx.concepto tx.importe).explicacion⟩ : Clasif))).filter
      (fun d => d.transaccion_id = t.id)) = [] := by
    apply filter_tid_nil
    intro c hc
    obtain ⟨tx, htx, rfl⟩ := List.mem_map.mp hc
    have htxp1 : tx ∈ (applyRules txs reglas).2 :=
      (checkHistoryGo_snd_sublist hist _ _).subset htx
    exact hp1 tx htxp1
  rw [hA, hB, hC]
  rfl

/-- When some decision falls below the threshold, the feedback-free run
pauses: review status, empty persistence, human flag raised, pending list =
the low-confidence decisions. -/
theorem runCascade_review_fields (hist : String → List String) (llm : String → ℚ → LLMOut)
    (txs : List Tx) (reglas : List Regla) (T : ℚ)
    (hne : ((llmClassify llm
        (checkHistory hist (applyRules txs reglas).1 (applyRules txs reglas).2).1
        (checkHistory hist (applyRules txs reglas).1 (applyRules txs reglas).2).2).filter
      (fun c => c.confianza < T)).isEmpty = false) :
    (runCascade hist llm txs reglas T none).status = "review" ∧
    (runCascade hist llm txs reglas T none).persisted = [] ∧
    (runCascade hist llm txs reglas T none).requires_human = true ∧
    (runCascade hist llm txs reglas T none).pendientes_revision =
      (runCascade hist llm txs reglas T none).clasificaciones.filter
        (fun c => c.confianza < T) := by
  refine ⟨?_, ?_, ?_, ?_⟩ <;>
    simp only [runCascade] <;> rw [if_pos (by simp [hne])] <;> simp [hne]

/-- With feedback attached, the run always completes and persists exactly
its decision list. -/
theorem runCascade_feedback_fields (hist : String → List String) (llm : String → ℚ → LLMOut)
    (txs : List Tx) (reglas : List Regla) (T : ℚ) (fb : Feedback) :
    (runCascade hist llm txs reglas T (some fb)).status = "completed" ∧
    (runCascade hist llm txs reglas T (some fb)).persisted =
      (runCascade hist llm txs reglas T (some fb)).clasificaciones := by
  constructor <;> (simp only [runCascade]; rw [if_neg (by simp)])

/-! ## Claim theorems: the classification cascade (C1, C2, C3) -/

/-- C1: in any run with some decision strictly below the threshold `T`,
every such decision is flagged for review, the feedback-free run halts in
"review" with the human flag set and persists nothing, and the re-run with
a feedback payload completes and persists every decision — so across pause
and resume each transaction's decision is persisted exactly once. -/
theorem cascade_review_gating (hist : String → List String) (llm : String → ℚ → LLMOut)
    (txs : List Tx) (reglas : List Regla) (T : ℚ) (fb : Feedback)
    (hnd : (txs.map Tx.id).Nodup)
    (hex : ∃ c ∈ (runCascade hist llm txs reglas T none).clasificaciones,
      c.confianza < T) :
    (∀ c ∈ (runCascade hist llm txs reglas T none).clasificaciones, c.confianza < T →
      c ∈ (runCascade hist llm txs reglas T none).pendientes_revision) ∧
    (runCascade hist llm txs reglas T none).requires_human = true ∧
    (runCascade hist llm txs reglas T none).status = "review" ∧
    (runCascade hist llm txs reglas T none).persisted = [] ∧
    (runCascade hist llm txs reglas T (some fb)).status = "completed" ∧
    (runCascade hist llm txs reglas T (some fb)).persisted =
      (runCascade hist llm txs reglas T (some fb)).clasificaciones ∧
    (∀ tx ∈ txs,
      ((runCascade hist llm txs reglas T none).persisted ++
        (runCascade hist llm txs reglas T (some fb)).persisted).countP
        (fun c => c.transaccion_id = tx.id) = 1) := by
  obtain ⟨c0, hc0, hlt0⟩ := hex
  rw [runCascade_clasif_none] at hc0
  have hpend : c0 ∈ (llmClassify llm
      (checkHistory hist (applyRules txs reglas).1 (applyRules txs reglas).2).1
      (checkHistory hist (applyRules txs reglas).1 (applyRules txs reglas).2).2).filter
        (fun c => c.confianza < T) :=
    List.mem_filter.mpr ⟨hc0, by simpa using hlt0⟩
  have hne : ((llmClassify llm
      (checkHistory hist (applyRules txs reglas).1 (applyRules txs reglas).2).1
      (checkHistory hist (applyRules txs reglas).1 (applyRules txs reglas).2).2).filter
        (fun c => c.confianza < T)).isEmpty = false := by
    cases hFil : (llmClassify llm
        (checkHistory hist (applyRules txs reglas).1 (applyRules txs reglas).2).1
        (checkHistory hist (applyRules txs reglas).1 (applyRules txs reglas).2).2).filter
          (fun c => c.confianza < T) with
    | nil => rw [hFil] at hpend; cases hpend
    | cons a l => rfl
  obtain ⟨hst1, hper1, hreq1, hpnd1⟩ := runCascade_review_fields hist llm txs reglas T hne
  obtain ⟨hst2, hper2⟩ := runCascade_feedback_fields hist llm txs reglas T fb
  refine ⟨?_, hreq1, hst1, hper1, hst2, hper2, ?_⟩
  · intro c hc hlt
    rw [hpnd1]
    exact List.mem_filter.mpr ⟨hc, by simpa using hlt⟩
  · intro tx htx
    rw [hper1, hper2, List.nil_append, countP_tid_eq_count_map,
      (runCascade_perm hist llm txs reglas T (some fb) hnd).count_eq]
    exact List.count_eq_one_of_mem hnd (List.mem_map.mpr ⟨tx, htx, rfl⟩)

/-- The history oracle of the concrete cascade scenarios: no validated
precedent. -/
def cwHist : String → List String := fun _ => []

/-- A low-confidence external classifier for the C1 scenario. -/
def w1llm : String → ℚ → LLMOut := fun _ _ => ⟨"629", mkRat 1 2, "baja confianza"⟩

/-- The C1 scenario transaction (no rule will match: there are no rules). -/
def w1tx : Tx := ⟨"t1", "COMPRA VARIOS", mkRat (-50) 1, "-50.0"⟩

/-- The C1 human feedback: correct `t1` to category 640. -/
def w1fb : Feedback := ⟨[("t1", "640")]⟩

/-- Witness for C1: one transaction classified by the LLM at confidence
0.5 < 0.75 pauses the run without persisting; the resumed run persists the
decision exactly once. -/
theorem cascade_review_gating_witness :
    (∀ c ∈ (runCascade cwHist w1llm [w1tx] [] (mkRat 3 4) none).clasificaciones,
      c.confianza < mkRat 3 4 →
      c ∈ (runCascade cwHist w1llm [w1tx] [] (mkRat 3 4) none).pendientes_revision) ∧
    (runCascade cwHist w1llm [w1tx] [] (mkRat 3 4) none).requires_human = true ∧
    (runCascade cwHist w1llm [w1tx] [] (mkRat 3 4) none).status = "review" ∧
    (runCascade cwHist w1llm [w1tx] [] (mkRat 3 4) none).persisted = [] ∧
    (runCascade cwHist w1llm [w1tx] [] (mkRat 3 4) (some w1fb)).status = "completed" ∧
    (runCascade cwHist w1llm [w1tx] [] (mkRat 3 4) (some w1fb)).persisted =
      (runCascade cwHist w1llm [w1tx] [] (mkRat 3 4) (some w1fb)).clasificaciones ∧
    (∀ tx ∈ [w1tx],
      ((runCascade cwHist w1llm [w1tx] [] (mkRat 3 4) none).persisted ++
        (runCascade cwHist w1llm [w1tx] [] (mkRat 3 4) (some w1fb)).persisted).countP
        (fun c => c.transaccion_id = tx.id) = 1) :=
  cascade_review_gating cwHist w1llm [w1tx] [] (mkRat 3 4) w1fb (by decide)
    ⟨⟨"t1", "629", mkRat 1 2, "llm", "baja confianza"⟩, by decide, by decide⟩

/-- C2 (amended): with rules sorted by descending priority, a transaction
matched by some rule receives exactly one decision — from the first
matching rule, which has maximal priority among its matches — with
confidence 0.99 and method tag `"regla"`, and it is removed from the
pending set, never reaching the history or LLM phases. -/
theorem rule_phase_first_match (hist : String → List String) (llm : String → ℚ → LLMOut)
    (txs : List Tx) (reglas : List Regla) (T : ℚ) (tx : Tx) (r : Regla)
    (hnd : (txs.map Tx.id).Nodup) (htx : tx ∈ txs)
    (hsorted : reglas.Pairwise (fun a b => b.prioridad ≤ a.prioridad))
    (hfind : reglas.find? (fun rr => matchRule tx rr.condicion) = some r) :
    (runCascade hist llm txs reglas T none).clasificaciones.filter
      (fun d => d.transaccion_id = tx.id) = [ruleDecision tx r] ∧
    (ruleDecision tx r).categoria_pgc = r.categoria_pgc ∧
    (ruleDecision tx r).confianza = mkRat 99 100 ∧
    (ruleDecision tx r).metodo = "regla" ∧
    matchRule tx r.condicion = true ∧
    (∀ r2 ∈ reglas, matchRule tx r2.condicion = true → r2.prioridad ≤ r.prioridad) ∧
    tx ∉ (applyRules txs reglas).2 := by
  refine ⟨cascade_unique_rule_decision hist llm txs reglas T tx r hnd htx hfind,
    rfl, rfl, rfl, ?_, ?_, ?_⟩
  · simpa using List.find?_some hfind
  · intro r2 hr2 hm2
    obtain ⟨pre, suf, rfl, hall⟩ := find?_split _ reglas r hfind
    rcases List.mem_append.mp hr2 with hpre | hcons
    · exact absurd hm2 (by simp [hall r2 hpre])
    · rcases List.mem_cons.mp hcons with rfl | hsuf
      · exact le_refl _
      · have := (List.pairwise_append.mp hsorted).2.1
        exact (List.pairwise_cons.mp this).1 r2 hsuf
  · intro hmem
    have hcf := (List.mem_filter.mp hmem).2
    have htid : tx.id ∈ (applyRulesGo reglas txs).2 := by
      rw [applyRulesGo_snd_eq]
      exact List.mem_map.mpr ⟨tx, List.mem_filter.mpr ⟨htx, by simp [hfind]⟩, rfl⟩
    exact absurd (List.elem_iff.mpr htid) (by simpa using hcf)

/-- The scenario rule `concepto contains "iberdrola" → 628`. -/
def iberRule : Regla := ⟨"r1", ⟨some "concepto", some "contains", some "iberdrola"⟩, "628", 10⟩

/-- The scenario record. -/
def iberTx : Tx := ⟨"t1", "RECIBO IBERDROLA DICIEMBRE", mkRat (-805) 10, "-80.5"⟩

/-- An external classifier that would disagree, to show it is never
consulted for the rule-matched record. -/
def cwLlm : String → ℚ → LLMOut := fun _ _ => ⟨"600", mkRat 9 10, ""⟩

/-- Witness for the amended C2 on the Iberdrola scenario. -/
theorem rule_phase_first_match_witness :
    (runCascade cwHist cwLlm [iberTx] [iberRule] (mkRat 3 4) none).clasificaciones.filter
      (fun d => d.transaccion_id = iberTx.id) = [ruleDecision iberTx iberRule] ∧
    (ruleDecision iberTx iberRule).categoria_pgc = iberRule.categoria_pgc ∧
    (ruleDecision iberTx iberRule).confianza = mkRat 99 100 ∧
    (ruleDecision iberTx iberRule).metodo = "regla" ∧
    matchRule iberTx iberRule.condicion = true ∧
    (∀ r2 ∈ [iberRule], matchRule iberTx r2.condicion = true →
      r2.prioridad ≤ iberRule.prioridad) ∧
    iberTx ∉ (applyRules [iberTx] [iberRule]).2 :=
  rule_phase_first_match cwHist cwLlm [iberTx] [iberRule] (mkRat 3 4) iberTx iberRule
    (by decide) (by decide) (by decide) (by decide)

/-- Counterexample to C2 as stated: on the spec's own scenario the rule
decision's confidence is 0.99, not 1.0 (and the method tag is the code's
`"regla"`); no decision of the run has confidence 1. -/
theorem rule_confidence_counterexample :
    (runCascade cwHist cwLlm [iberTx] [iberRule] (mkRat 3 4) none).clasificaciones =
      [⟨"t1", "628", mkRat 99 100, "regla", "Regla: r1"⟩] ∧
    (∀ c ∈ (runCascade cwHist cwLlm [iberTx] [iberRule] (mkRat 3 4) none).clasificaciones,
      c.confianza ≠ 1) := by
  exact ⟨by decide, by decide⟩

/-- C3: with distinct input ids, every run's decisions cover the input set
exactly — the decision ids are a permutation of the input ids, each record
gets exactly one decision — and a record classified in the rule phase is
never re-classified by the history or LLM phases: its unique decision is
its rule decision. -/
theorem cascade_partition (hist : String → List String) (llm : String → ℚ → LLMOut)
    (txs : List Tx) (reglas : List Regla) (T : ℚ) (fb : Option Feedback)
    (hnd : (txs.map Tx.id).Nodup) :
    ((runCascade hist llm txs reglas T fb).clasificaciones.map
      (·.transaccion_id)).Perm (txs.map Tx.id) ∧
    (∀ tx ∈ txs, (runCascade hist llm txs reglas T fb).clasificaciones.countP
      (fun c => c.transaccion_id = tx.id) = 1) ∧
    (∀ c ∈ (applyRules txs reglas).1,
      (runCascade hist llm txs reglas T none).clasificaciones.filter
        (fun d => d.transaccion_id = c.transaccion_id) = [c]) := by
  refine ⟨runCascade_perm hist llm txs reglas T fb hnd, ?_, ?_⟩
  · intro tx htx
    rw [countP_tid_eq_count_map, (runCascade_perm hist llm txs reglas T fb hnd).count_eq]
    exact List.count_eq_one_of_mem hnd (List.mem_map.mpr ⟨tx, htx, rfl⟩)
  · intro c hc
    have hc' : c ∈ (applyRulesGo reglas txs).1 := hc
    rw [applyRulesGo_fst_eq] at hc'
    obtain ⟨t, ht, hsome⟩ := List.mem_filterMap.mp hc'
    obtain ⟨r, hr, hcr⟩ := Option.map_eq_some'.mp hsome
    have htid : c.transaccion_id = t.id := by rw [← hcr]; rfl
    rw [htid, ← hcr]
    exact cascade_unique_rule_decision hist llm txs reglas T t r hnd ht hr

/-- The second transaction of the C3 witness (classified by the LLM). -/
def w3tx : Tx := ⟨"t2", "OTRO GASTO", mkRat 5 1, "5.0"⟩

/-- Witness for C3 on a two-record batch: one record resolved by the rule,
one by the LLM; ids partition, one decision each, and the rule decision
survives untouched. -/
theorem cascade_partition_witness :
    ((runCascade cwHist cwLlm [iberTx, w3tx] [iberRule] (mkRat 3 4)
      none).clasificaciones.map (·.transaccion_id)).Perm ([iberTx, w3tx].map Tx.id) ∧
    (∀ tx ∈ [iberTx, w3tx],
      (runCascade cwHist cwLlm [iberTx, w3tx] [iberRule] (mkRat 3 4)
        none).clasificaciones.countP (fun c => c.transaccion_id = tx.id) = 1) ∧
    (∀ c ∈ (applyRules [iberTx, w3tx] [iberRule]).1,
      (runCascade cwHist cwLlm [iberTx, w3tx] [iberRule] (mkRat 3 4)
        none).clasificaciones.filter
        (fun d => d.transaccion_id = c.transaccion_id) = [c]) :=
  cascade_partition cwHist cwLlm [iberTx, w3tx] [iberRule] (mkRat 3 4) none (by decide)
